import Mathlib

/-! # AssimpLoader (graphics/src/AssimpLoader.cc)

A shallow embedding of `AssimpLoader::Load` and its helpers `ConvertColor`,
`ConvertTransform` and `CreateMaterial`.

* Scalars (`float`, `double`) are rationals: all statements are over exact
  arithmetic.  `Vector3d::Normalize` needs a square root and is a parameter.
* A C array together with its element count (`mVertices`/`mNumVertices`,
  `mFaces`/`mNumFaces`, `mChildren`/`mNumChildren`, ...) is a `List`; the count
  is the length.  Arrays that merely share a count with another array
  (`mNormals`, the texture-coordinate sets) are lists of their own length.
* Every array access is `xs[i]?`; the loader is a function into `Option`,
  `none` standing for an access outside an array.
* Counted `for` loops are `forLoop`; the `while` loop over texture-coordinate
  sets carries fuel.
* Indices and counts (`unsigned`, and the `int` set counter, which stays below
  `AI_MAX_NUMBER_OF_TEXTURECOORDS + 1`) are natural numbers: the loader copies
  and compares them and never computes with them.
* Log output (`ignmsg`, `igndbg`, `ignerr`) is not modelled.
-/

namespace AssimpLoader

/-! ## Types of the import library (assimp) -/

/-- The assimp constant `AI_MAX_NUMBER_OF_TEXTURECOORDS`. -/
abbrev AI_MAX_NUMBER_OF_TEXTURECOORDS : Nat := 8

/-- The assimp colour `aiColor4D`. -/
structure aiColor4D where
  r : ℚ
  g : ℚ
  b : ℚ
  a : ℚ
deriving DecidableEq

/-- The assimp vector `aiVector3D`. -/
structure aiVector3D where
  x : ℚ
  y : ℚ
  z : ℚ
deriving DecidableEq

/-- The assimp row-major matrix `aiMatrix4x4`: `a1 .. a4` is the first row. -/
structure aiMatrix4x4 where
  a1 : ℚ
  a2 : ℚ
  a3 : ℚ
  a4 : ℚ
  b1 : ℚ
  b2 : ℚ
  b3 : ℚ
  b4 : ℚ
  c1 : ℚ
  c2 : ℚ
  c3 : ℚ
  c4 : ℚ
  d1 : ℚ
  d2 : ℚ
  d3 : ℚ
  d4 : ℚ
deriving DecidableEq

/-- The assimp face `aiFace`: `mIndices` with `mNumIndices` its length. -/
structure aiFace where
  mIndices : List Nat
deriving DecidableEq

/-- The assimp mesh `aiMesh`.  `mName` is the C string `mName.C_Str()`;
`mTextureCoords` is the array of `AI_MAX_NUMBER_OF_TEXTURECOORDS` pointers,
`none` being the null pointer. -/
structure aiMesh where
  mName : String
  mVertices : List aiVector3D
  mNormals : List aiVector3D
  mTextureCoords : Fin AI_MAX_NUMBER_OF_TEXTURECOORDS → Option (List aiVector3D)
  mFaces : List aiFace
  mMaterialIndex : Nat

/-- The field `aiMesh::mNumVertices`. -/
def aiMesh.mNumVertices (m : aiMesh) : Nat := m.mVertices.length

/-- The field `aiMesh::mNumFaces`. -/
def aiMesh.mNumFaces (m : aiMesh) : Nat := m.mFaces.length

/-- The assimp method `aiMesh::HasTextureCoords`: false from index
`AI_MAX_NUMBER_OF_TEXTURECOORDS` on, otherwise whether the set's pointer is
non-null and the mesh has a vertex. -/
def aiMesh.HasTextureCoords (m : aiMesh) (index : Nat) : Bool :=
  if h : index < AI_MAX_NUMBER_OF_TEXTURECOORDS then
    (m.mTextureCoords ⟨index, h⟩).isSome && decide (0 < m.mNumVertices)
  else false

/-- The access `mTextureCoords[i][vertex_idx]`. -/
def aiMesh.texCoordAt (m : aiMesh) (i vertex_idx : Nat) : Option aiVector3D :=
  if h : i < AI_MAX_NUMBER_OF_TEXTURECOORDS then
    (m.mTextureCoords ⟨i, h⟩).bind (fun set => set[vertex_idx]?)
  else none

/-- The assimp material `aiMaterial`, as the results of the `Get` and
`GetTexture` calls made on it: `none` is a result other than `AI_SUCCESS`. -/
structure aiMaterial where
  colorDiffuse : Option aiColor4D
  colorAmbient : Option aiColor4D
  colorSpecular : Option aiColor4D
  colorEmissive : Option aiColor4D
  shininess : Option ℚ
  textureDiffuse : Option String
deriving DecidableEq

/-- The assimp animation `aiAnimation`: the three counts that are logged. -/
structure aiAnimation where
  mNumMeshChannels : Nat
  mNumChannels : Nat
  mNumMorphMeshChannels : Nat
deriving DecidableEq

/-- The assimp node `aiNode`: name (the C string `mName.C_Str()`), transform,
indices into the scene's mesh array, children. -/
inductive aiNode where
  | mk (mName : String) (mTransformation : aiMatrix4x4) (mMeshes : List Nat)
      (mChildren : List aiNode)

/-- The field `aiNode::mName`. -/
def aiNode.mName : aiNode → String
  | .mk n _ _ _ => n

/-- The field `aiNode::mTransformation`. -/
def aiNode.mTransformation : aiNode → aiMatrix4x4
  | .mk _ t _ _ => t

/-- The field `aiNode::mMeshes`. -/
def aiNode.mMeshes : aiNode → List Nat
  | .mk _ _ ms _ => ms

/-- The field `aiNode::mChildren`. -/
def aiNode.mChildren : aiNode → List aiNode
  | .mk _ _ _ cs => cs

/-- The field `aiNode::mNumMeshes`. -/
def aiNode.mNumMeshes (n : aiNode) : Nat := n.mMeshes.length

/-- The field `aiNode::mNumChildren`. -/
def aiNode.mNumChildren (n : aiNode) : Nat := n.mChildren.length

/-- The assimp scene `aiScene` as the importer returns it: the root node and the
entries of the three arrays are non-null. -/
structure aiScene where
  mRootNode : aiNode
  mMeshes : List aiMesh
  mMaterials : List aiMaterial
  mAnimations : List aiAnimation

/-- The field `aiScene::mNumMeshes`. -/
def aiScene.mNumMeshes (s : aiScene) : Nat := s.mMeshes.length

/-- The field `aiScene::mNumMaterials`. -/
def aiScene.mNumMaterials (s : aiScene) : Nat := s.mMaterials.length

/-- The field `aiScene::mNumAnimations`. -/
def aiScene.mNumAnimations (s : aiScene) : Nat := s.mAnimations.length

/-! ## Types of the math library -/

/-- The colour `ignition::math::Color`, built from its four components. -/
structure Color where
  r : ℚ
  g : ℚ
  b : ℚ
  a : ℚ
deriving DecidableEq

/-- The vector `ignition::math::Vector2d`. -/
structure Vector2d where
  x : ℚ
  y : ℚ
deriving DecidableEq

/-- The vector `ignition::math::Vector3d`. -/
structure Vector3d where
  x : ℚ
  y : ℚ
  z : ℚ
deriving DecidableEq

/-- The constant `Vector3d::Zero`. -/
def Vector3d.Zero : Vector3d := ⟨0, 0, 0⟩

/-- The matrix `ignition::math::Matrix4d`; `mij` is `data[i][j]`, and the
sixteen-argument constructor takes the entries row by row. -/
structure Matrix4d where
  m00 : ℚ
  m01 : ℚ
  m02 : ℚ
  m03 : ℚ
  m10 : ℚ
  m11 : ℚ
  m12 : ℚ
  m13 : ℚ
  m20 : ℚ
  m21 : ℚ
  m22 : ℚ
  m23 : ℚ
  m30 : ℚ
  m31 : ℚ
  m32 : ℚ
  m33 : ℚ
deriving DecidableEq

/-- The product `Matrix4d::operator*(const Matrix4d &)`. -/
def Matrix4d.mul (p q : Matrix4d) : Matrix4d :=
  { m00 := p.m00 * q.m00 + p.m01 * q.m10 + p.m02 * q.m20 + p.m03 * q.m30
    m01 := p.m00 * q.m01 + p.m01 * q.m11 + p.m02 * q.m21 + p.m03 * q.m31
    m02 := p.m00 * q.m02 + p.m01 * q.m12 + p.m02 * q.m22 + p.m03 * q.m32
    m03 := p.m00 * q.m03 + p.m01 * q.m13 + p.m02 * q.m23 + p.m03 * q.m33
    m10 := p.m10 * q.m00 + p.m11 * q.m10 + p.m12 * q.m20 + p.m13 * q.m30
    m11 := p.m10 * q.m01 + p.m11 * q.m11 + p.m12 * q.m21 + p.m13 * q.m31
    m12 := p.m10 * q.m02 + p.m11 * q.m12 + p.m12 * q.m22 + p.m13 * q.m32
    m13 := p.m10 * q.m03 + p.m11 * q.m13 + p.m12 * q.m23 + p.m13 * q.m33
    m20 := p.m20 * q.m00 + p.m21 * q.m10 + p.m22 * q.m20 + p.m23 * q.m30
    m21 := p.m20 * q.m01 + p.m21 * q.m11 + p.m22 * q.m21 + p.m23 * q.m31
    m22 := p.m20 * q.m02 + p.m21 * q.m12 + p.m22 * q.m22 + p.m23 * q.m32
    m23 := p.m20 * q.m03 + p.m21 * q.m13 + p.m22 * q.m23 + p.m23 * q.m33
    m30 := p.m30 * q.m00 + p.m31 * q.m10 + p.m32 * q.m20 + p.m33 * q.m30
    m31 := p.m30 * q.m01 + p.m31 * q.m11 + p.m32 * q.m21 + p.m33 * q.m31
    m32 := p.m30 * q.m02 + p.m31 * q.m12 + p.m32 * q.m22 + p.m33 * q.m32
    m33 := p.m30 * q.m03 + p.m31 * q.m13 + p.m32 * q.m23 + p.m33 * q.m33 }

/-- The product `Matrix4d::operator*(const Vector3d &)`: the affine transform
of the vector, the fourth row of the matrix unused. -/
def Matrix4d.mulVec (p : Matrix4d) (v : Vector3d) : Vector3d :=
  { x := p.m00 * v.x + p.m01 * v.y + p.m02 * v.z + p.m03
    y := p.m10 * v.x + p.m11 * v.y + p.m12 * v.z + p.m13
    z := p.m20 * v.x + p.m21 * v.y + p.m22 * v.z + p.m23 }

/-- The setter `Matrix4d::SetTranslation`: overwrites the first three entries
of the last column. -/
def Matrix4d.SetTranslation (p : Matrix4d) (t : Vector3d) : Matrix4d :=
  { p with m03 := t.x, m13 := t.y, m23 := t.z }

/-! ## Mesh types of the library -/

/-- Modelled from the spec: the class `Material` (Material.hh is not among the
sources), as the properties `CreateMaterial` sets.  `texImage` holds the two
arguments of the last `SetTextureImage` call. -/
structure Material where
  diffuse : Color
  ambient : Color
  specular : Color
  emissive : Color
  shininess : ℚ
  texImage : Option (String × String)
deriving DecidableEq

/-- Modelled from the spec: the setter `Material::SetDiffuse` (Material.cc is not
among the sources) stores the colour. -/
def Material.SetDiffuse (m : Material) (c : Color) : Material := { m with diffuse := c }

/-- Modelled from the spec: the setter `Material::SetAmbient` stores the colour. -/
def Material.SetAmbient (m : Material) (c : Color) : Material := { m with ambient := c }

/-- Modelled from the spec: the setter `Material::SetSpecular` stores the colour. -/
def Material.SetSpecular (m : Material) (c : Color) : Material := { m with specular := c }

/-- Modelled from the spec: the setter `Material::SetEmissive` stores the colour. -/
def Material.SetEmissive (m : Material) (c : Color) : Material := { m with emissive := c }

/-- Modelled from the spec: the setter `Material::SetShininess` stores the value. -/
def Material.SetShininess (m : Material) (s : ℚ) : Material := { m with shininess := s }

/-- Modelled from the spec: the setter `Material::SetTextureImage` with a resource
path; the two arguments are kept as they are passed. -/
def Material.SetTextureImage (m : Material) (tex resourcePath : String) : Material :=
  { m with texImage := some (tex, resourcePath) }

/-- Modelled from the spec: the class `SubMesh` (SubMesh.hh is not among the
sources), "a named, indexed triangle list sharing one material": name, vertex
positions, normals, texture coordinates keyed by set, index list, and the
material index (`none` until set). -/
structure SubMesh where
  name : String
  vertices : List Vector3d
  normals : List Vector3d
  texCoords : List (Nat × List Vector2d)
  indices : List Nat
  materialIndex : Option Nat
deriving DecidableEq

/-- Modelled from the spec: the default constructor `SubMesh()` (SubMesh.cc is not
among the sources) makes a submesh without name, data or material index. -/
def SubMesh.new : SubMesh :=
  { name := "", vertices := [], normals := [], texCoords := [], indices := [],
    materialIndex := none }

/-- Modelled from the spec: the method `SubMesh::AddVertex` appends a vertex. -/
def SubMesh.AddVertex (sm : SubMesh) (v : Vector3d) : SubMesh :=
  { sm with vertices := sm.vertices ++ [v] }

/-- Modelled from the spec: the method `SubMesh::AddNormal` appends a normal. -/
def SubMesh.AddNormal (sm : SubMesh) (n : Vector3d) : SubMesh :=
  { sm with normals := sm.normals ++ [n] }

/-- Modelled from the spec: the texture coordinates of a submesh, keyed by set.
Appends a coordinate to the entry of key `set`, creating the entry when the key
is new. -/
def pushTexCoord (set : Nat) (uv : Vector2d) :
    List (Nat × List Vector2d) → List (Nat × List Vector2d)
  | [] => [(set, [uv])]
  | (k, vs) :: rest =>
    if k = set then (k, vs ++ [uv]) :: rest else (k, vs) :: pushTexCoord set uv rest

/-- Modelled from the spec: the method `SubMesh::AddTexCoordBySet` appends the
coordinate `(u, v)` to the coordinates of the set. -/
def SubMesh.AddTexCoordBySet (sm : SubMesh) (u v : ℚ) (set : Nat) : SubMesh :=
  { sm with texCoords := pushTexCoord set ⟨u, v⟩ sm.texCoords }

/-- Modelled from the spec: the texture coordinates a submesh holds for a set;
empty when the set has no entry (`SubMesh::TexCoordCountBySet` is the length). -/
def SubMesh.TexCoordsBySet (sm : SubMesh) (set : Nat) : List Vector2d :=
  match sm.texCoords.find? (fun e => e.1 == set) with
  | some e => e.2
  | none => []

/-- Modelled from the spec: the method `SubMesh::AddIndex` appends an index. -/
def SubMesh.AddIndex (sm : SubMesh) (i : Nat) : SubMesh :=
  { sm with indices := sm.indices ++ [i] }

/-- Modelled from the spec: the method `SubMesh::SetName` stores the name. -/
def SubMesh.SetName (sm : SubMesh) (n : String) : SubMesh := { sm with name := n }

/-- Modelled from the spec: the method `SubMesh::SetMaterialIndex` stores the
index. -/
def SubMesh.SetMaterialIndex (sm : SubMesh) (i : Nat) : SubMesh :=
  { sm with materialIndex := some i }

/-- Modelled from the spec: the class `Mesh` (Mesh.hh is not among the
sources): the submeshes and the material list their material indices refer
to. -/
structure Mesh where
  submeshes : List SubMesh
  materials : List Material
deriving DecidableEq

/-- Modelled from the spec: the default constructor `Mesh()` (Mesh.cc is not among
the sources) makes a mesh without submeshes and materials. -/
def Mesh.new : Mesh := { submeshes := [], materials := [] }

/-- Modelled from the spec: the method `Mesh::AddMaterial`, for a non-null
material, appends it to the material list. -/
def Mesh.AddMaterial (m : Mesh) (mat : Material) : Mesh :=
  { m with materials := m.materials ++ [mat] }

/-- Modelled from the spec: the method `Mesh::AddSubMesh` appends the submesh. -/
def Mesh.AddSubMesh (m : Mesh) (sm : SubMesh) : Mesh :=
  { m with submeshes := m.submeshes ++ [sm] }

/-- Modelled from the spec: the method `Mesh::SubMeshByName` gives the first
submesh of that name; `none` is the expired pointer. -/
def Mesh.SubMeshByName (m : Mesh) (n : String) : Option SubMesh :=
  m.submeshes.find? (fun sm => sm.name == n)

/-! ## Loops -/

/-- Runs `body i` for `count` consecutive values of `i` from `idx` on,
threading the state; `none` as soon as a body fails. -/
def forLoopFrom {σ : Type} (body : Nat → σ → Option σ) : Nat → Nat → σ → Option σ
  | 0, _, s => some s
  | count + 1, idx, s =>
    match body idx s with
    | none => none
    | some s1 => forLoopFrom body count (idx + 1) s1

/-- The loop `for (unsigned idx = 0; idx < n; ++idx) body`. -/
def forLoop {σ : Type} (n : Nat) (body : Nat → σ → Option σ) (s : σ) : Option σ :=
  forLoopFrom body n 0 s

/-! ## The loader -/

/-- The method `AssimpLoader::Implementation::ConvertColor`. -/
def ConvertColor (_color : aiColor4D) : Color :=
  ⟨_color.r, _color.g, _color.b, _color.a⟩

/-- The method `AssimpLoader::Implementation::ConvertTransform`. -/
def ConvertTransform (_sm : aiMatrix4x4) : Matrix4d :=
  Matrix4d.mk
    _sm.a1 _sm.a2 _sm.a3 _sm.a4
    _sm.b1 _sm.b2 _sm.b3 _sm.b4
    _sm.c1 _sm.c2 _sm.c3 _sm.c4
    _sm.d1 _sm.d2 _sm.d3 _sm.d4

/-- The property setters of `CreateMaterial`, applied to the material found at
`mMaterials[mat_idx]`; `mat` is the freshly constructed `Material`. -/
def fillMaterial (mat : Material) (src : aiMaterial) (path : String) : Material :=
  let mat := match src.colorDiffuse with
    | some color => mat.SetDiffuse (ConvertColor color)
    | none => mat
  let mat := match src.colorAmbient with
    | some color => mat.SetAmbient (ConvertColor color)
    | none => mat
  let mat := match src.colorSpecular with
    | some color => mat.SetSpecular (ConvertColor color)
    | none => mat
  let mat := match src.colorEmissive with
    | some color => mat.SetEmissive (ConvertColor color)
    | none => mat
  let mat := match src.shininess with
    | some shininess => mat.SetShininess shininess
    | none => mat
  match src.textureDiffuse with
  | some texturePath => mat.SetTextureImage texturePath path
  | none => mat

/-- The method `AssimpLoader::Implementation::CreateMaterial`.  `newMaterial`
is the value of `Material()`. -/
def CreateMaterial (newMaterial : Material) (scene : aiScene) (mat_idx : Nat)
    (path : String) : Option Material :=
  match scene.mMaterials[mat_idx]? with
  | none => none
  | some src => some (fillMaterial newMaterial src path)

/-- The loop `while (assimp_mesh->HasTextureCoords(i))` of `Load`, from set
`i` on, for one vertex.  `none` when the fuel runs out or an access is out of
range. -/
def texCoordLoop (assimp_mesh : aiMesh) (vertex_idx : Nat) :
    Nat → Nat → SubMesh → Option SubMesh
  | 0, _, _ => none
  | fuel + 1, i, subMesh =>
    if assimp_mesh.HasTextureCoords i then
      match assimp_mesh.texCoordAt i vertex_idx with
      | none => none
      | some tc =>
        let texcoords : Vector3d := ⟨tc.x, tc.y, 0⟩
        texCoordLoop assimp_mesh vertex_idx fuel (i + 1)
          (subMesh.AddTexCoordBySet texcoords.x (1 - texcoords.y) i)
    else some subMesh

/-- The body of the vertex loop of `Load`. -/
def vertexBody (Normalize : Vector3d → Vector3d) (assimp_mesh : aiMesh)
    (trans rot : Matrix4d) (vertex_idx : Nat) (subMesh : SubMesh) : Option SubMesh :=
  match assimp_mesh.mVertices[vertex_idx]?, assimp_mesh.mNormals[vertex_idx]? with
  | some v, some n =>
    let vertex : Vector3d := ⟨v.x, v.y, v.z⟩
    let normal : Vector3d := ⟨n.x, n.y, n.z⟩
    let vertex := trans.mulVec vertex
    let normal := rot.mulVec normal
    let normal := Normalize normal
    texCoordLoop assimp_mesh vertex_idx (AI_MAX_NUMBER_OF_TEXTURECOORDS + 1) 0
      ((subMesh.AddVertex vertex).AddNormal normal)
  | _, _ => none

/-- The body of the face loop of `Load`. -/
def faceBody (assimp_mesh : aiMesh) (face_idx : Nat) (subMesh : SubMesh) : Option SubMesh :=
  match assimp_mesh.mFaces[face_idx]? with
  | none => none
  | some face =>
    match face.mIndices[0]?, face.mIndices[1]?, face.mIndices[2]? with
    | some i0, some i1, some i2 => some (((subMesh.AddIndex i0).AddIndex i1).AddIndex i2)
    | _, _, _ => none

/-- The body of the loop of `Load` over the meshes of one node: builds one
submesh and adds it to the mesh. -/
def meshBody (Normalize : Vector3d → Vector3d) (scene : aiScene)
    (root_transformation : Matrix4d) (node : aiNode) (mesh_idx : Nat) (mesh : Mesh) :
    Option Mesh :=
  match node.mMeshes[mesh_idx]? with
  | none => none
  | some assimp_mesh_idx =>
    match scene.mMeshes[assimp_mesh_idx]? with
    | none => none
    | some assimp_mesh =>
      let trans := ConvertTransform node.mTransformation
      let trans := root_transformation.mul trans
      let rot := trans.SetTranslation Vector3d.Zero
      match forLoop assimp_mesh.mNumVertices
          (vertexBody Normalize assimp_mesh trans rot) SubMesh.new with
      | none => none
      | some subMesh =>
        match forLoop assimp_mesh.mNumFaces (faceBody assimp_mesh) subMesh with
        | none => none
        | some subMesh =>
          let subMesh := subMesh.SetName node.mName
          let subMesh := subMesh.SetMaterialIndex assimp_mesh.mMaterialIndex
          some (mesh.AddSubMesh subMesh)

/-- The body of the loop of `Load` over the children of the root node. -/
def nodeBody (Normalize : Vector3d → Vector3d) (scene : aiScene)
    (root_transformation : Matrix4d) (root_node : aiNode) (node_idx : Nat) (mesh : Mesh) :
    Option Mesh :=
  match root_node.mChildren[node_idx]? with
  | none => none
  | some node =>
    forLoop node.mNumMeshes (meshBody Normalize scene root_transformation node) mesh

/-- The body of the loop of `Load` that adds the materials. -/
def materialBody (newMaterial : Material) (scene : aiScene) (path : String)
    (mat_idx : Nat) (mesh : Mesh) : Option Mesh :=
  match CreateMaterial newMaterial scene mat_idx path with
  | none => none
  | some mat => some (mesh.AddMaterial mat)

/-- The body of the loop of `Load` over "meshes in scene not contained in root
node": looks the mesh's name up among the submeshes and leaves the mesh as it
is on both branches. -/
def sceneMeshBody (scene : aiScene) (mesh_idx : Nat) (mesh : Mesh) : Option Mesh :=
  match scene.mMeshes[mesh_idx]? with
  | none => none
  | some assimp_mesh =>
    let mesh_name := assimp_mesh.mName
    if (mesh.SubMeshByName mesh_name).isSome then some mesh
    else some mesh

/-- The body of the loop of `Load` over the animations: it reads the animation
and changes nothing. -/
def animationBody (scene : aiScene) (anim_idx : Nat) (mesh : Mesh) : Option Mesh :=
  match scene.mAnimations[anim_idx]? with
  | none => none
  | some _anim => some mesh

/-- The method `AssimpLoader::Load`.  `path` is `parentPath(_filename)` and
`scene` the result of `importer.ReadFile`, `none` being the null pointer;
`Normalize` is `Vector3d::Normalize` and `newMaterial` the value of
`Material()`. -/
def Load (Normalize : Vector3d → Vector3d) (newMaterial : Material) (path : String)
    (scene : Option aiScene) : Option Mesh :=
  let mesh := Mesh.new
  match scene with
  | none => some mesh
  | some scene =>
    let root_node := scene.mRootNode
    let root_transformation := ConvertTransform scene.mRootNode.mTransformation
    match forLoop scene.mNumMaterials (materialBody newMaterial scene path) mesh with
    | none => none
    | some mesh =>
      match forLoop root_node.mNumChildren
          (nodeBody Normalize scene root_transformation root_node) mesh with
      | none => none
      | some mesh =>
        match forLoop scene.mNumMeshes (sceneMeshBody scene) mesh with
        | none => none
        | some mesh =>
          match forLoop scene.mNumAnimations (animationBody scene) mesh with
          | none => none
          | some mesh => some mesh

/-! ## Notions used to state the properties -/

/-- The pointer `mTextureCoords[j]` of a mesh, null from index
`AI_MAX_NUMBER_OF_TEXTURECOORDS` on. -/
def aiMesh.texCoordSet (m : aiMesh) (j : Nat) : Option (List aiVector3D) :=
  if h : j < AI_MAX_NUMBER_OF_TEXTURECOORDS then m.mTextureCoords ⟨j, h⟩ else none

/-- The mesh references of the direct children of a node, child by child, each
with the child that holds it. -/
def meshRefs (root_node : aiNode) : List (aiNode × Nat) :=
  root_node.mChildren.flatMap (fun node => node.mMeshes.map (fun idx => (node, idx)))

/-- The sets `i .. j` all pass `HasTextureCoords`. -/
def setsPresent (am : aiMesh) (i j : Nat) : Prop :=
  ∀ j1, i ≤ j1 → j1 ≤ j → am.HasTextureCoords j1 = true

/-- The vertex position `Load` stores for a source vertex. -/
def outVertex (trans : Matrix4d) (v : aiVector3D) : Vector3d :=
  trans.mulVec ⟨v.x, v.y, v.z⟩

/-- The normal `Load` stores for a source normal. -/
def outNormal (Normalize : Vector3d → Vector3d) (trans : Matrix4d) (n : aiVector3D) : Vector3d :=
  Normalize ((trans.SetTranslation Vector3d.Zero).mulVec ⟨n.x, n.y, n.z⟩)

/-- The texture coordinate `Load` stores for a source coordinate. -/
def outTexCoord (tc : aiVector3D) : Vector2d := ⟨tc.x, 1 - tc.y⟩

/-- The submesh `sm` holds what `Load` builds from the mesh `am` referenced by
`node`, `trans` being the product of the root's and the node's transform. -/
structure BuiltFrom (Normalize : Vector3d → Vector3d) (trans : Matrix4d) (node : aiNode)
    (am : aiMesh) (sm : SubMesh) : Prop where
  name_eq : sm.name = node.mName
  material_eq : sm.materialIndex = some am.mMaterialIndex
  vertices_eq : sm.vertices = am.mVertices.map (outVertex trans)
  normals_le : am.mNumVertices ≤ am.mNormals.length
  normals_eq : sm.normals = (am.mNormals.take am.mNumVertices).map (outNormal Normalize trans)
  tex_present : ∀ j, setsPresent am 0 j → ∃ set, am.texCoordSet j = some set ∧
    am.mNumVertices ≤ set.length ∧
    sm.TexCoordsBySet j = (set.take am.mNumVertices).map outTexCoord
  tex_absent : ∀ j, ¬ setsPresent am 0 j → sm.TexCoordsBySet j = []
  faces_ge : ∀ f ∈ am.mFaces, 3 ≤ f.mIndices.length
  indices_eq : sm.indices = am.mFaces.flatMap (fun f => f.mIndices.take 3)

/-- The state of the vertex loop of `Load` before iteration `i`. -/
def VertInv (Normalize : Vector3d → Vector3d) (am : aiMesh) (trans : Matrix4d) (i : Nat)
    (sm : SubMesh) : Prop :=
  sm.name = "" ∧ sm.indices = [] ∧ sm.materialIndex = none ∧
  sm.vertices = (am.mVertices.take i).map (outVertex trans) ∧
  i ≤ am.mNormals.length ∧
  sm.normals = (am.mNormals.take i).map (outNormal Normalize trans) ∧
  (∀ j, setsPresent am 0 j → ∃ set, am.texCoordSet j = some set ∧ i ≤ set.length ∧
    sm.TexCoordsBySet j = (set.take i).map outTexCoord) ∧
  (∀ j, ¬ setsPresent am 0 j → sm.TexCoordsBySet j = [])

/-- The state of the face loop of `Load` before iteration `i`, entered with
the submesh `sm0`. -/
def FaceInv (am : aiMesh) (sm0 : SubMesh) (i : Nat) (sm : SubMesh) : Prop :=
  sm.name = sm0.name ∧ sm.vertices = sm0.vertices ∧ sm.normals = sm0.normals ∧
  sm.texCoords = sm0.texCoords ∧ sm.materialIndex = sm0.materialIndex ∧
  (∀ f ∈ am.mFaces.take i, 3 ≤ f.mIndices.length) ∧
  sm.indices = sm0.indices ++ (am.mFaces.take i).flatMap (fun f => f.mIndices.take 3)

/-- The submesh `sm` is what `Load` builds for the mesh reference `r` of a
child of the root of `scene`. -/
def RefBuilt (Normalize : Vector3d → Vector3d) (scene : aiScene) (r : aiNode × Nat)
    (sm : SubMesh) : Prop :=
  ∃ am, scene.mMeshes[r.2]? = some am ∧
    BuiltFrom Normalize ((ConvertTransform scene.mRootNode.mTransformation).mul
      (ConvertTransform r.1.mTransformation)) r.1 am sm

/-- The conditions under which building a submesh from the mesh `am` makes no
access outside an array: a normal for each vertex, an entry for each vertex in
each texture-coordinate set that is present, three indices in each face. -/
def MeshWellFormed (am : aiMesh) : Prop :=
  am.mNumVertices ≤ am.mNormals.length ∧
  (∀ (j : Fin AI_MAX_NUMBER_OF_TEXTURECOORDS) (set : List aiVector3D),
    am.mTextureCoords j = some set → am.mNumVertices ≤ set.length) ∧
  (∀ f ∈ am.mFaces, 3 ≤ f.mIndices.length)

/-- Two scenes agree on the direct children of their roots: the children pair
up in order, and the two of a pair have the same name, transform and mesh
indices, every one of which refers to the same mesh in both scenes. -/
def ChildrenAgree (s1 s2 : aiScene) : Prop :=
  List.Forall₂ (fun c1 c2 => c1.mName = c2.mName ∧ c1.mTransformation = c2.mTransformation ∧
      c1.mMeshes = c2.mMeshes ∧ ∀ idx ∈ c1.mMeshes, s1.mMeshes[idx]? = s2.mMeshes[idx]?)
    s1.mRootNode.mChildren s2.mRootNode.mChildren

/-- The assimp matrix as a 4x4 matrix: the letter is the row, the digit the
column. -/
def aiMatrix4x4.toMatrix (m : aiMatrix4x4) : Matrix (Fin 4) (Fin 4) ℚ :=
  Matrix.of ![![m.a1, m.a2, m.a3, m.a4], ![m.b1, m.b2, m.b3, m.b4],
    ![m.c1, m.c2, m.c3, m.c4], ![m.d1, m.d2, m.d3, m.d4]]

/-- The math-library matrix as a 4x4 matrix: entry `(i, j)` is `data[i][j]`. -/
def Matrix4d.toMatrix (p : Matrix4d) : Matrix (Fin 4) (Fin 4) ℚ :=
  Matrix.of ![![p.m00, p.m01, p.m02, p.m03], ![p.m10, p.m11, p.m12, p.m13],
    ![p.m20, p.m21, p.m22, p.m23], ![p.m30, p.m31, p.m32, p.m33]]

/-- The matrix with its translation (the first three entries of the last
column) set to zero. -/
def zeroTranslation (A : Matrix (Fin 4) (Fin 4) ℚ) : Matrix (Fin 4) (Fin 4) ℚ :=
  Matrix.of (fun i j => if j = 3 ∧ i ≠ 3 then 0 else A i j)

/-- The matrix applied to `(x, y, z)` as a point, that is to the homogeneous
vector `(x, y, z, 1)`; the first three coordinates of the result. -/
def applyPoint (A : Matrix (Fin 4) (Fin 4) ℚ) (x y z : ℚ) : Vector3d :=
  { x := Matrix.mulVec A ![x, y, z, 1] 0
    y := Matrix.mulVec A ![x, y, z, 1] 1
    z := Matrix.mulVec A ![x, y, z, 1] 2 }

mutual
/-- The total number of mesh references over a node and all its descendants. -/
def totalMeshRefs : aiNode → Nat
  | .mk _ _ ms cs => ms.length + totalMeshRefsList cs
/-- The total number of mesh references over the nodes of a list and all their
descendants. -/
def totalMeshRefsList : List aiNode → Nat
  | [] => 0
  | c :: cs => totalMeshRefs c + totalMeshRefsList cs
end

/-- The identity transform. -/
def sampleIdentity : aiMatrix4x4 :=
  ⟨1, 0, 0, 0, 0, 1, 0, 0, 0, 0, 1, 0, 0, 0, 0, 1⟩

/-- A transform that doubles x and moves by (5, 6, 7). -/
def sampleTransform : aiMatrix4x4 :=
  ⟨2, 0, 0, 5, 0, 1, 0, 6, 0, 0, 1, 7, 0, 0, 0, 1⟩

/-- A triangle with one set of texture coordinates, using material 1. -/
def sampleTriangle : aiMesh :=
  { mName := "triangle"
    mVertices := [⟨0, 0, 0⟩, ⟨1, 0, 0⟩, ⟨0, 1, 0⟩]
    mNormals := [⟨0, 0, 1⟩, ⟨0, 0, 1⟩, ⟨0, 0, 1⟩]
    mTextureCoords := fun j => if j = 0 then some [⟨0, 0, 0⟩, ⟨1, 0, 0⟩, ⟨0, 1 / 4, 0⟩] else none
    mFaces := [⟨[0, 1, 2]⟩]
    mMaterialIndex := 1 }

/-- A square of two triangles without texture coordinates, using material 0. -/
def sampleSquare : aiMesh :=
  { mName := "square"
    mVertices := [⟨0, 0, 0⟩, ⟨1, 0, 0⟩, ⟨1, 1, 0⟩, ⟨0, 1, 0⟩]
    mNormals := [⟨0, 0, 1⟩, ⟨0, 0, 1⟩, ⟨0, 0, 1⟩, ⟨0, 0, 1⟩]
    mTextureCoords := fun _ => none
    mFaces := [⟨[0, 1, 2]⟩, ⟨[0, 2, 3]⟩]
    mMaterialIndex := 0 }

/-- A scene whose root holds a mesh of its own and has two children, the second
with a child of its own; it has two materials and one animation. -/
def sampleScene : aiScene :=
  { mRootNode := aiNode.mk "root" sampleTransform [0]
      [aiNode.mk "left" sampleIdentity [0] [],
       aiNode.mk "right" sampleTransform [1, 0] [aiNode.mk "deep" sampleIdentity [1] []]]
    mMeshes := [sampleTriangle, sampleSquare]
    mMaterials := [⟨some ⟨1, 0, 0, 1⟩, none, none, none, some 5, none⟩,
      ⟨none, some ⟨0, 1 / 2, 0, 1⟩, none, none, none, some "wood.png"⟩]
    mAnimations := [⟨1, 2, 3⟩] }

/-- A scene with the materials, root transform and root children of
`sampleScene` (up to their own children), but another root name, no mesh on the
root, a third mesh that no child of the root refers to, and no animation. -/
def sampleSceneVariant : aiScene :=
  { mRootNode := aiNode.mk "scene" sampleTransform []
      [aiNode.mk "left" sampleIdentity [0] [aiNode.mk "extra" sampleTransform [2] []],
       aiNode.mk "right" sampleTransform [1, 0] []]
    mMeshes := [sampleTriangle, sampleSquare, sampleSquare]
    mMaterials := [⟨some ⟨1, 0, 0, 1⟩, none, none, none, some 5, none⟩,
      ⟨none, some ⟨0, 1 / 2, 0, 1⟩, none, none, none, some "wood.png"⟩]
    mAnimations := [] }

/-- A value for the freshly constructed `Material`. -/
def sampleMaterial : Material :=
  ⟨⟨1, 1, 1, 1⟩, ⟨1, 1, 1, 1⟩, ⟨0, 0, 0, 1⟩, ⟨0, 0, 0, 1⟩, 0, none⟩

/-- The mesh `Load` returns for `sampleScene`. -/
def sampleLoaded : Mesh :=
  (Load id sampleMaterial "assets" (some sampleScene)).getD Mesh.new

/-! # Theorems -/

/-! ## Loop rules -/

theorem forLoopFrom_inv {σ : Type} (body : Nat → σ → Option σ) (P : Nat → σ → Prop) :
    ∀ (count idx : Nat) (s s1 : σ),
      (∀ i t t1, idx ≤ i → i < idx + count → P i t → body i t = some t1 → P (i + 1) t1) →
      P idx s → forLoopFrom body count idx s = some s1 → P (idx + count) s1 := by
  intro count
  induction count with
  | zero =>
    intro idx s s1 _ h0 h
    simp only [forLoopFrom, Option.some.injEq] at h
    subst h
    simpa using h0
  | succ k ih =>
    intro idx s s1 hstep h0 h
    simp only [forLoopFrom] at h
    cases hb : body idx s with
    | none => simp [hb] at h
    | some t =>
      simp only [hb] at h
      have h1 : P (idx + 1) t := hstep idx s t (le_refl _) (by omega) h0 hb
      have := ih (idx + 1) t s1
        (fun i u u1 hi hlt => hstep i u u1 (by omega) (by omega)) h1 h
      have e : idx + 1 + k = idx + (k + 1) := by omega
      rwa [e] at this

theorem forLoopFrom_total {σ : Type} (body : Nat → σ → Option σ) (P : Nat → σ → Prop) :
    ∀ (count idx : Nat) (s : σ),
      (∀ i t, idx ≤ i → i < idx + count → P i t → ∃ t1, body i t = some t1 ∧ P (i + 1) t1) →
      P idx s → ∃ s1, forLoopFrom body count idx s = some s1 ∧ P (idx + count) s1 := by
  intro count
  induction count with
  | zero =>
    intro idx s _ h0
    exact ⟨s, rfl, by simpa using h0⟩
  | succ k ih =>
    intro idx s hstep h0
    obtain ⟨t, hb, h1⟩ := hstep idx s (le_refl _) (by omega) h0
    obtain ⟨s1, hs1, hP⟩ := ih (idx + 1) t
      (fun i u hi hlt => hstep i u (by omega) (by omega)) h1
    refine ⟨s1, ?_, ?_⟩
    · simp only [forLoopFrom, hb]
      exact hs1
    · have e : idx + 1 + k = idx + (k + 1) := by omega
      rwa [e] at hP

theorem forLoopFrom_congr {σ : Type} (body1 body2 : Nat → σ → Option σ) :
    ∀ (count idx : Nat) (s : σ),
      (∀ i t, idx ≤ i → i < idx + count → body1 i t = body2 i t) →
      forLoopFrom body1 count idx s = forLoopFrom body2 count idx s := by
  intro count
  induction count with
  | zero => intro idx s _; rfl
  | succ k ih =>
    intro idx s h
    simp only [forLoopFrom]
    rw [h idx s (le_refl _) (by omega)]
    cases body2 idx s with
    | none => rfl
    | some t => exact ih (idx + 1) t (fun i u hi hlt => h i u (by omega) (by omega))

theorem forLoop_inv {σ : Type} (body : Nat → σ → Option σ) (P : Nat → σ → Prop)
    (n : Nat) (s s1 : σ)
    (hstep : ∀ i t t1, i < n → P i t → body i t = some t1 → P (i + 1) t1)
    (h0 : P 0 s) (h : forLoop n body s = some s1) : P n s1 := by
  have := forLoopFrom_inv body P n 0 s s1
    (fun i t t1 _ hlt => hstep i t t1 (by omega)) h0 h
  simpa using this

theorem forLoop_total {σ : Type} (body : Nat → σ → Option σ) (P : Nat → σ → Prop)
    (n : Nat) (s : σ)
    (hstep : ∀ i t, i < n → P i t → ∃ t1, body i t = some t1 ∧ P (i + 1) t1)
    (h0 : P 0 s) : ∃ s1, forLoop n body s = some s1 ∧ P n s1 := by
  have := forLoopFrom_total body P n 0 s
    (fun i t _ hlt => hstep i t (by omega)) h0
  simpa [forLoop] using this

theorem forLoop_congr {σ : Type} (body1 body2 : Nat → σ → Option σ) (n : Nat) (s : σ)
    (h : ∀ i t, i < n → body1 i t = body2 i t) :
    forLoop n body1 s = forLoop n body2 s :=
  forLoopFrom_congr body1 body2 n 0 s (fun i t _ hlt => h i t (by omega))

theorem forLoop_skip {σ : Type} (body : Nat → σ → Option σ) (n : Nat) (s : σ)
    (h : ∀ i, i < n → body i s = some s) : forLoop n body s = some s := by
  obtain ⟨s1, hs1, hP⟩ := forLoop_total body (fun _ t => t = s) n s
    (fun i t hi ht => ⟨s, by rw [ht]; exact h i hi, rfl⟩) rfl
  rw [hs1, hP]

/-! ## Texture coordinates -/

theorem find_pushTexCoord (set j : Nat) (uv : Vector2d) (l : List (Nat × List Vector2d)) :
    (match (pushTexCoord set uv l).find? (fun e => e.1 == j) with
      | some e => e.2
      | none => []) =
    if j = set then
      (match l.find? (fun e => e.1 == j) with
        | some e => e.2
        | none => []) ++ [uv]
    else
      (match l.find? (fun e => e.1 == j) with
        | some e => e.2
        | none => []) := by
  induction l with
  | nil =>
    by_cases hj : j = set
    · subst hj; simp [pushTexCoord]
    · have : ¬ set = j := fun h => hj h.symm
      simp [pushTexCoord, hj, this]
  | cons e rest ih =>
    obtain ⟨k, vs⟩ := e
    by_cases hk : k = set
    · subst hk
      by_cases hj : j = k
      · subst hj; simp [pushTexCoord]
      · have : ¬ k = j := fun h => hj h.symm
        simp [pushTexCoord, hj, this]
    · by_cases hj : k = j
      · subst hj
        simp [pushTexCoord, hk]
      · simp only [pushTexCoord, hk, if_false, List.find?_cons, beq_iff_eq, hj, decide_False]
        have hb : (k == j) = false := by simpa using hj
        simp only [hb]
        exact ih

theorem TexCoordsBySet_AddTexCoordBySet (sm : SubMesh) (u v : ℚ) (set j : Nat) :
    (sm.AddTexCoordBySet u v set).TexCoordsBySet j =
      if j = set then sm.TexCoordsBySet j ++ [⟨u, v⟩] else sm.TexCoordsBySet j := by
  unfold SubMesh.TexCoordsBySet SubMesh.AddTexCoordBySet
  exact find_pushTexCoord set j ⟨u, v⟩ sm.texCoords

theorem HasTextureCoords_iff (am : aiMesh) (j : Nat) :
    am.HasTextureCoords j = true ↔ (am.texCoordSet j).isSome = true ∧ 0 < am.mNumVertices := by
  unfold aiMesh.HasTextureCoords aiMesh.texCoordSet
  by_cases h : j < AI_MAX_NUMBER_OF_TEXTURECOORDS <;> simp [h]

theorem texCoordAt_eq (am : aiMesh) (j v : Nat) :
    am.texCoordAt j v = (am.texCoordSet j).bind (fun set => set[v]?) := by
  unfold aiMesh.texCoordAt aiMesh.texCoordSet
  by_cases h : j < AI_MAX_NUMBER_OF_TEXTURECOORDS <;> simp [h]

theorem HasTextureCoords_lt (am : aiMesh) (j : Nat) (h : am.HasTextureCoords j = true) :
    j < AI_MAX_NUMBER_OF_TEXTURECOORDS := by
  unfold aiMesh.HasTextureCoords at h
  by_cases hj : j < AI_MAX_NUMBER_OF_TEXTURECOORDS
  · exact hj
  · simp [hj] at h

/-- What the loop over the texture-coordinate sets does to a submesh. -/
theorem texCoordLoop_spec (am : aiMesh) (v : Nat) :
    ∀ (fuel i : Nat) (sm sm1 : SubMesh), texCoordLoop am v fuel i sm = some sm1 →
      sm1.name = sm.name ∧ sm1.vertices = sm.vertices ∧ sm1.normals = sm.normals ∧
      sm1.indices = sm.indices ∧ sm1.materialIndex = sm.materialIndex ∧
      ∀ j, (i ≤ j ∧ setsPresent am i j →
              ∃ tc, am.texCoordAt j v = some tc ∧
                sm1.TexCoordsBySet j = sm.TexCoordsBySet j ++ [⟨tc.x, 1 - tc.y⟩]) ∧
           (¬ (i ≤ j ∧ setsPresent am i j) → sm1.TexCoordsBySet j = sm.TexCoordsBySet j) := by
  intro fuel
  induction fuel with
  | zero => intro i sm sm1 h; simp [texCoordLoop] at h
  | succ f ih =>
    intro i sm sm1 h
    simp only [texCoordLoop] at h
    by_cases hh : am.HasTextureCoords i = true
    · simp only [hh, if_true] at h
      cases htc : am.texCoordAt i v with
      | none => simp [htc] at h
      | some tc =>
        simp only [htc] at h
        obtain ⟨h1, h2, h3, h4, h5, h6⟩ := ih (i + 1) _ sm1 h
        refine ⟨h1, h2, h3, h4, h5, ?_⟩
        intro j
        have hpush := TexCoordsBySet_AddTexCoordBySet sm tc.x (1 - tc.y) i j
        by_cases hji : j = i
        · subst hji
          have hnot : ¬ (j + 1 ≤ j ∧ setsPresent am (j + 1) j) := by omega
          have e := (h6 j).2 hnot
          rw [hpush] at e
          simp only [if_true] at e
          constructor
          · intro _
            exact ⟨tc, htc, e⟩
          · intro hn
            exact absurd ⟨le_refl _, fun j1 h1 h2 => by
              have : j1 = j := by omega
              rw [this]; exact hh⟩ hn
        · simp only [hji, if_false] at hpush
          have hequiv : (i ≤ j ∧ setsPresent am i j) ↔ (i + 1 ≤ j ∧ setsPresent am (i + 1) j) := by
            constructor
            · rintro ⟨hle, hp⟩
              exact ⟨by omega, fun j1 h1 h2 => hp j1 (by omega) h2⟩
            · rintro ⟨hle, hp⟩
              refine ⟨by omega, fun j1 h1 h2 => ?_⟩
              by_cases e : j1 = i
              · rw [e]; exact hh
              · exact hp j1 (by omega) h2
          constructor
          · intro hc
            obtain ⟨tc1, ht1, ht2⟩ := (h6 j).1 (hequiv.1 hc)
            exact ⟨tc1, ht1, by rw [ht2, hpush]⟩
          · intro hc
            have := (h6 j).2 (fun hc1 => hc (hequiv.2 hc1))
            rw [this, hpush]
    · have hf : am.HasTextureCoords i = false := by simpa using hh
      simp only [hf] at h
      simp only [Bool.false_eq_true, if_false, Option.some.injEq] at h
      subst h
      refine ⟨rfl, rfl, rfl, rfl, rfl, ?_⟩
      intro j
      constructor
      · rintro ⟨hle, hp⟩
        exact absurd (hp i (le_refl _) hle) hh
      · intro _; rfl

/-- The loop over the texture-coordinate sets ends within its fuel when every
set that passes `HasTextureCoords` has an entry for the vertex. -/
theorem texCoordLoop_total (am : aiMesh) (v : Nat)
    (hacc : ∀ j, am.HasTextureCoords j = true → (am.texCoordAt j v).isSome = true) :
    ∀ (fuel i : Nat) (sm : SubMesh), i ≤ AI_MAX_NUMBER_OF_TEXTURECOORDS →
      AI_MAX_NUMBER_OF_TEXTURECOORDS < i + fuel →
      ∃ sm1, texCoordLoop am v fuel i sm = some sm1 := by
  intro fuel
  induction fuel with
  | zero =>
    intro i sm hle hlt
    exact absurd hlt (by omega)
  | succ f ih =>
    intro i sm hle hlt
    simp only [texCoordLoop]
    by_cases hh : am.HasTextureCoords i = true
    · simp only [hh, if_true]
      have := hacc i hh
      cases htc : am.texCoordAt i v with
      | none => simp [htc] at this
      | some tc =>
        simp only []
        have := HasTextureCoords_lt am i hh
        exact ih (i + 1) _ (by omega) (by omega)
    · have hf : am.HasTextureCoords i = false := by simpa using hh
      simp [hf]

/-! ## Building one submesh -/

theorem take_succ_of_getElem? {α : Type} (l : List α) (i : Nat) (a : α)
    (h : l[i]? = some a) : l.take (i + 1) = l.take i ++ [a] := by
  rw [List.take_succ, h]; rfl

theorem lt_length_of_getElem? {α : Type} (l : List α) (i : Nat) (a : α)
    (h : l[i]? = some a) : i < l.length := by
  by_contra hn
  rw [List.getElem?_eq_none (by omega)] at h
  exact absurd h (by simp)

theorem VertInv_new (Normalize : Vector3d → Vector3d) (am : aiMesh) (trans : Matrix4d) :
    VertInv Normalize am trans 0 SubMesh.new := by
  refine ⟨rfl, rfl, rfl, by simp [SubMesh.new], Nat.zero_le _, by simp [SubMesh.new], ?_, ?_⟩
  · intro j hp
    have h := (HasTextureCoords_iff am j).1 (hp j (Nat.zero_le _) (le_refl _))
    obtain ⟨set, hset⟩ := Option.isSome_iff_exists.1 h.1
    exact ⟨set, hset, Nat.zero_le _, by simp [SubMesh.TexCoordsBySet, SubMesh.new]⟩
  · intro j _
    simp [SubMesh.TexCoordsBySet, SubMesh.new]

theorem vertexBody_step (Normalize : Vector3d → Vector3d) (am : aiMesh) (trans : Matrix4d)
    (i : Nat) (sm sm1 : SubMesh) (hinv : VertInv Normalize am trans i sm)
    (h : vertexBody Normalize am trans (trans.SetTranslation Vector3d.Zero) i sm = some sm1) :
    VertInv Normalize am trans (i + 1) sm1 := by
  obtain ⟨hname, hidx, hmat, hv, hnle, hn, htp, hta⟩ := hinv
  unfold vertexBody at h
  cases hvi : am.mVertices[i]? with
  | none => simp [hvi] at h
  | some v =>
    cases hni : am.mNormals[i]? with
    | none => simp [hvi, hni] at h
    | some n =>
      simp only [hvi, hni] at h
      obtain ⟨h1, h2, h3, h4, h5, h6⟩ := texCoordLoop_spec am i _ 0 _ sm1 h
      refine ⟨h1.trans hname, h4.trans hidx, h5.trans hmat, ?_, ?_, ?_, ?_, ?_⟩
      · rw [h2, take_succ_of_getElem? _ _ _ hvi]
        simp [SubMesh.AddVertex, SubMesh.AddNormal, hv, outVertex]
      · have := lt_length_of_getElem? _ _ _ hni
        omega
      · rw [h3, take_succ_of_getElem? _ _ _ hni]
        simp [SubMesh.AddVertex, SubMesh.AddNormal, hn, outNormal]
      · intro j hp
        obtain ⟨set, hset, hle, hold⟩ := htp j hp
        obtain ⟨tc, htc, hnew⟩ := (h6 j).1 ⟨Nat.zero_le _, hp⟩
        rw [texCoordAt_eq, hset] at htc
        simp only [Option.some_bind] at htc
        refine ⟨set, hset, lt_length_of_getElem? _ _ _ htc, ?_⟩
        rw [hnew, take_succ_of_getElem? _ _ _ htc]
        have e : ((sm.AddVertex (trans.mulVec ⟨v.x, v.y, v.z⟩)).AddNormal
            (Normalize ((trans.SetTranslation Vector3d.Zero).mulVec ⟨n.x, n.y, n.z⟩))).TexCoordsBySet j
            = sm.TexCoordsBySet j := rfl
        rw [e, hold]
        simp [outTexCoord]
      · intro j hp
        have := (h6 j).2 (fun hc => hp hc.2)
        rw [this]
        exact hta j hp

theorem take_three {α : Type} (l : List α) (a b c : α) (h0 : l[0]? = some a)
    (h1 : l[1]? = some b) (h2 : l[2]? = some c) : l.take 3 = [a, b, c] ∧ 3 ≤ l.length := by
  match l, h0, h1, h2 with
  | x :: y :: z :: rest, h0, h1, h2 =>
    simp at h0 h1 h2
    subst h0 h1 h2
    simp

theorem faceBody_step (am : aiMesh) (sm0 : SubMesh) (i : Nat) (sm sm1 : SubMesh)
    (hinv : FaceInv am sm0 i sm) (h : faceBody am i sm = some sm1) :
    FaceInv am sm0 (i + 1) sm1 := by
  obtain ⟨h1, h2, h3, h4, h5, h6, h7⟩ := hinv
  unfold faceBody at h
  cases hf : am.mFaces[i]? with
  | none => simp [hf] at h
  | some face =>
    simp only [hf] at h
    cases e0 : face.mIndices[0]? with
    | none => simp [e0] at h
    | some i0 =>
      cases e1 : face.mIndices[1]? with
      | none => simp [e0, e1] at h
      | some i1 =>
        cases e2 : face.mIndices[2]? with
        | none => simp [e0, e1, e2] at h
        | some i2 =>
          simp only [e0, e1, e2, Option.some.injEq] at h
          subst h
          obtain ⟨ht, hl⟩ := take_three _ _ _ _ e0 e1 e2
          refine ⟨h1, h2, h3, h4, h5, ?_, ?_⟩
          · intro f hfm
            rw [take_succ_of_getElem? _ _ _ hf, List.mem_append] at hfm
            rcases hfm with hfm | hfm
            · exact h6 f hfm
            · simp only [List.mem_singleton] at hfm
              rw [hfm]; exact hl
          · rw [take_succ_of_getElem? _ _ _ hf]
            simp [SubMesh.AddIndex, h7, ht]

/-- What one iteration of the loop over a node's meshes adds to the mesh. -/
theorem meshBody_spec (Normalize : Vector3d → Vector3d) (scene : aiScene)
    (root_transformation : Matrix4d) (node : aiNode) (mesh_idx : Nat) (mesh mesh1 : Mesh)
    (h : meshBody Normalize scene root_transformation node mesh_idx mesh = some mesh1) :
    ∃ idx am sm, node.mMeshes[mesh_idx]? = some idx ∧ scene.mMeshes[idx]? = some am ∧
      BuiltFrom Normalize (root_transformation.mul (ConvertTransform node.mTransformation))
        node am sm ∧
      mesh1 = mesh.AddSubMesh sm := by
  unfold meshBody at h
  cases hidx : node.mMeshes[mesh_idx]? with
  | none => simp [hidx] at h
  | some idx =>
    cases ham : scene.mMeshes[idx]? with
    | none => simp [hidx, ham] at h
    | some am =>
      simp only [hidx, ham] at h
      cases hv : forLoop am.mNumVertices (vertexBody Normalize am
          (root_transformation.mul (ConvertTransform node.mTransformation))
          ((root_transformation.mul (ConvertTransform node.mTransformation)).SetTranslation
            Vector3d.Zero)) SubMesh.new with
      | none => simp [hv] at h
      | some sm0 =>
        simp only [hv] at h
        cases hf : forLoop am.mNumFaces (faceBody am) sm0 with
        | none => simp [hf] at h
        | some sm1 =>
          simp only [hf, Option.some.injEq] at h
          have hV := forLoop_inv _ (VertInv Normalize am
              (root_transformation.mul (ConvertTransform node.mTransformation)))
            am.mNumVertices SubMesh.new sm0
            (fun i t t1 _ hP hb => vertexBody_step Normalize am _ i t t1 hP hb)
            (VertInv_new Normalize am _) hv
          have hF := forLoop_inv _ (FaceInv am sm0) am.mNumFaces sm0 sm1
            (fun i t t1 _ hP hb => faceBody_step am sm0 i t t1 hP hb)
            ⟨rfl, rfl, rfl, rfl, rfl, by simp, by simp⟩ hf
          obtain ⟨v1, v2, v3, v4, v5, v6, v7, v8⟩ := hV
          obtain ⟨f1, f2, f3, f4, f5, f6, f7⟩ := hF
          have htex : ∀ j, sm1.TexCoordsBySet j = sm0.TexCoordsBySet j := by
            intro j; unfold SubMesh.TexCoordsBySet; rw [f4]
          refine ⟨idx, am, (sm1.SetName node.mName).SetMaterialIndex am.mMaterialIndex,
            rfl, ham, ?_, h.symm⟩
          constructor
          · rfl
          · rfl
          · show sm1.vertices = _
            rw [f2, v4]
            simp [aiMesh.mNumVertices]
          · exact v5
          · show sm1.normals = _
            rw [f3, v6]
          · intro j hp
            obtain ⟨set, hs, hl, he⟩ := v7 j hp
            exact ⟨set, hs, hl, (htex j).trans he⟩
          · intro j hp
            exact (htex j).trans (v8 j hp)
          · intro f hfm
            apply f6
            simpa [aiMesh.mNumFaces] using hfm
          · show sm1.indices = _
            rw [f7, v2]
            simp [aiMesh.mNumFaces]

/-! ## The loops of `Load` -/

theorem forall₂_getElem?_right {α β : Type} (R : α → β → Prop) :
    ∀ (l1 : List α) (l2 : List β), List.Forall₂ R l1 l2 → ∀ (i : Nat) (b : β),
      l2[i]? = some b → ∃ a, l1[i]? = some a ∧ R a b := by
  intro l1 l2 h
  induction h with
  | nil => intro i b hb; simp at hb
  | cons hab _ ih =>
    intro i b hb
    cases i with
    | zero =>
      simp only [List.getElem?_cons_zero, Option.some.injEq] at hb
      subst hb
      exact ⟨_, by simp, hab⟩
    | succ k =>
      simp only [List.getElem?_cons_succ] at hb
      obtain ⟨a, ha, hr⟩ := ih k b hb
      exact ⟨a, by simpa using ha, hr⟩

theorem forall₂_getElem?_left {α β : Type} (R : α → β → Prop) :
    ∀ (l1 : List α) (l2 : List β), List.Forall₂ R l1 l2 → ∀ (i : Nat) (a : α),
      l1[i]? = some a → ∃ b, l2[i]? = some b ∧ R a b := by
  intro l1 l2 h
  induction h with
  | nil => intro i a ha; simp at ha
  | cons hab _ ih =>
    intro i a ha
    cases i with
    | zero =>
      simp only [List.getElem?_cons_zero, Option.some.injEq] at ha
      subst ha
      exact ⟨_, by simp, hab⟩
    | succ k =>
      simp only [List.getElem?_cons_succ] at ha
      obtain ⟨b, hb, hr⟩ := ih k a ha
      exact ⟨b, by simpa using hb, hr⟩

theorem forall₂_snoc {α β : Type} (R : α → β → Prop) (l1 : List α) (l2 : List β) (a : α)
    (b : β) (h : List.Forall₂ R l1 l2) (hab : R a b) :
    List.Forall₂ R (l1 ++ [a]) (l2 ++ [b]) :=
  List.rel_append h (List.Forall₂.cons hab List.Forall₂.nil)

/-- The loop over the meshes of one node appends one submesh per mesh
reference and leaves the materials alone. -/
theorem meshLoop_spec (Normalize : Vector3d → Vector3d) (scene : aiScene) (node : aiNode)
    (mesh mesh1 : Mesh)
    (h : forLoop node.mNumMeshes (meshBody Normalize scene
      (ConvertTransform scene.mRootNode.mTransformation) node) mesh = some mesh1) :
    mesh1.materials = mesh.materials ∧
    ∃ sms, mesh1.submeshes = mesh.submeshes ++ sms ∧
      List.Forall₂ (RefBuilt Normalize scene) (node.mMeshes.map (fun idx => (node, idx))) sms := by
  have := forLoop_inv _ (fun i (m : Mesh) => m.materials = mesh.materials ∧
      ∃ sms, m.submeshes = mesh.submeshes ++ sms ∧
        List.Forall₂ (RefBuilt Normalize scene)
          ((node.mMeshes.take i).map (fun idx => (node, idx))) sms)
    node.mNumMeshes mesh mesh1 ?_ ⟨rfl, [], by simp, by simp⟩ h
  · simpa [aiNode.mNumMeshes] using this
  · rintro i t t1 _ ⟨hm, sms, hs, hf⟩ hb
    obtain ⟨idx, am, sm, hidx, ham, hbuilt, ht1⟩ := meshBody_spec _ _ _ _ _ _ _ hb
    subst ht1
    refine ⟨hm, sms ++ [sm], by simp [Mesh.AddSubMesh, hs], ?_⟩
    rw [take_succ_of_getElem? _ _ _ hidx, List.map_append]
    exact forall₂_snoc _ _ _ _ _ hf ⟨am, ham, hbuilt⟩

/-- The loop over the children of the root appends the submeshes of every
mesh reference of every child, in order. -/
theorem nodeLoop_spec (Normalize : Vector3d → Vector3d) (scene : aiScene) (mesh mesh1 : Mesh)
    (h : forLoop scene.mRootNode.mNumChildren (nodeBody Normalize scene
      (ConvertTransform scene.mRootNode.mTransformation) scene.mRootNode) mesh = some mesh1) :
    mesh1.materials = mesh.materials ∧
    ∃ sms, mesh1.submeshes = mesh.submeshes ++ sms ∧
      List.Forall₂ (RefBuilt Normalize scene) (meshRefs scene.mRootNode) sms := by
  have := forLoop_inv _ (fun i (m : Mesh) => m.materials = mesh.materials ∧
      ∃ sms, m.submeshes = mesh.submeshes ++ sms ∧
        List.Forall₂ (RefBuilt Normalize scene)
          ((scene.mRootNode.mChildren.take i).flatMap
            (fun node => node.mMeshes.map (fun idx => (node, idx)))) sms)
    scene.mRootNode.mNumChildren mesh mesh1 ?_ ⟨rfl, [], by simp, by simp⟩ h
  · simpa [aiNode.mNumChildren, meshRefs] using this
  · rintro i t t1 _ ⟨hm, sms, hs, hf⟩ hb
    unfold nodeBody at hb
    cases hn : scene.mRootNode.mChildren[i]? with
    | none => simp [hn] at hb
    | some node =>
      simp only [hn] at hb
      obtain ⟨hm1, sms1, hs1, hf1⟩ := meshLoop_spec _ _ _ _ _ hb
      refine ⟨hm1.trans hm, sms ++ sms1, by rw [hs1, hs, List.append_assoc], ?_⟩
      rw [take_succ_of_getElem? _ _ _ hn, List.flatMap_append]
      simp only [List.flatMap_cons, List.flatMap_nil, List.append_nil]
      exact List.rel_append hf hf1

/-- The loop that adds the materials always ends and appends the material made
from each scene material, in order. -/
theorem materialLoop_eq (newMaterial : Material) (scene : aiScene) (path : String)
    (mesh : Mesh) :
    forLoop scene.mNumMaterials (materialBody newMaterial scene path) mesh =
      some { submeshes := mesh.submeshes
             materials := mesh.materials ++
               scene.mMaterials.map (fun src => fillMaterial newMaterial src path) } := by
  have key := forLoop_total (materialBody newMaterial scene path)
    (fun i (m : Mesh) => m = { submeshes := mesh.submeshes
                               materials := mesh.materials ++ (scene.mMaterials.take i).map
                                 (fun src => fillMaterial newMaterial src path) })
    scene.mNumMaterials mesh ?_ (by simp)
  · obtain ⟨m1, hm1, hP⟩ := key
    rw [hm1, hP]
    simp [aiScene.mNumMaterials]
  · intro i t hi ht
    have hi1 : i < scene.mMaterials.length := hi
    have hget : scene.mMaterials[i]? = some scene.mMaterials[i] := List.getElem?_eq_getElem hi1
    refine ⟨t.AddMaterial (fillMaterial newMaterial scene.mMaterials[i] path),
      by simp only [materialBody, CreateMaterial, hget], ?_⟩
    show t.AddMaterial _ = _
    rw [ht, take_succ_of_getElem? _ _ _ hget]
    simp only [Mesh.AddMaterial, List.map_append, List.map_cons, List.map_nil,
      List.append_assoc]

/-- The loop over the scene's meshes leaves the mesh as it is. -/
theorem sceneMeshLoop_eq (scene : aiScene) (mesh : Mesh) :
    forLoop scene.mNumMeshes (sceneMeshBody scene) mesh = some mesh := by
  apply forLoop_skip
  intro i hi
  have hi1 : i < scene.mMeshes.length := hi
  simp [sceneMeshBody, List.getElem?_eq_getElem hi1]

/-- The loop over the animations leaves the mesh as it is. -/
theorem animationLoop_eq (scene : aiScene) (mesh : Mesh) :
    forLoop scene.mNumAnimations (animationBody scene) mesh = some mesh := by
  apply forLoop_skip
  intro i hi
  have hi1 : i < scene.mAnimations.length := hi
  simp [animationBody, List.getElem?_eq_getElem hi1]

/-- On a scene, `Load` is the loop over the root's children run on the mesh
that holds the materials. -/
theorem Load_eq (Normalize : Vector3d → Vector3d) (newMaterial : Material) (path : String)
    (scene : aiScene) :
    Load Normalize newMaterial path (some scene) =
      forLoop scene.mRootNode.mNumChildren
        (nodeBody Normalize scene (ConvertTransform scene.mRootNode.mTransformation)
          scene.mRootNode)
        { submeshes := []
          materials := scene.mMaterials.map (fun src => fillMaterial newMaterial src path) } := by
  unfold Load
  simp only [materialLoop_eq, Mesh.new, List.nil_append]
  cases forLoop scene.mRootNode.mNumChildren
      (nodeBody Normalize scene (ConvertTransform scene.mRootNode.mTransformation)
        scene.mRootNode)
      { submeshes := []
        materials := scene.mMaterials.map (fun src => fillMaterial newMaterial src path) } with
  | none => rfl
  | some m => simp only [sceneMeshLoop_eq, animationLoop_eq]

/-- What a mesh returned by `Load` for a scene holds. -/
theorem Load_spec (Normalize : Vector3d → Vector3d) (newMaterial : Material) (path : String)
    (scene : aiScene) (mesh : Mesh)
    (h : Load Normalize newMaterial path (some scene) = some mesh) :
    mesh.materials = scene.mMaterials.map (fun src => fillMaterial newMaterial src path) ∧
    List.Forall₂ (RefBuilt Normalize scene) (meshRefs scene.mRootNode) mesh.submeshes := by
  rw [Load_eq] at h
  obtain ⟨hm, sms, hs, hf⟩ := nodeLoop_spec _ _ _ _ h
  refine ⟨hm, ?_⟩
  rw [hs]
  simpa using hf

/-! ## `Load` returns a mesh -/

theorem vertexBody_total (Normalize : Vector3d → Vector3d) (am : aiMesh) (trans rot : Matrix4d)
    (hwf : MeshWellFormed am) (i : Nat) (hi : i < am.mNumVertices) (sm : SubMesh) :
    ∃ sm1, vertexBody Normalize am trans rot i sm = some sm1 := by
  obtain ⟨hn, ht, _⟩ := hwf
  have hi1 : i < am.mVertices.length := hi
  have hi2 : i < am.mNormals.length := by omega
  unfold vertexBody
  rw [List.getElem?_eq_getElem hi1, List.getElem?_eq_getElem hi2]
  simp only []
  apply texCoordLoop_total am i _ _ 0 _ (by omega) (by omega)
  intro j hj
  have hlt := HasTextureCoords_lt am j hj
  unfold aiMesh.HasTextureCoords at hj
  simp only [hlt, dif_pos, Bool.and_eq_true, decide_eq_true_eq] at hj
  obtain ⟨set, hset⟩ := Option.isSome_iff_exists.1 hj.1
  have hlen := ht ⟨j, hlt⟩ set hset
  unfold aiMesh.texCoordAt
  simp only [hlt, dif_pos, hset, Option.some_bind]
  rw [List.getElem?_eq_getElem (by omega)]
  rfl

theorem faceBody_total (am : aiMesh) (hwf : MeshWellFormed am) (i : Nat)
    (hi : i < am.mNumFaces) (sm : SubMesh) : ∃ sm1, faceBody am i sm = some sm1 := by
  obtain ⟨_, _, hf⟩ := hwf
  have hi1 : i < am.mFaces.length := hi
  have h3 := hf am.mFaces[i] (List.getElem_mem _)
  unfold faceBody
  rw [List.getElem?_eq_getElem hi1]
  simp only []
  rw [List.getElem?_eq_getElem (by omega : 0 < (am.mFaces[i]).mIndices.length),
    List.getElem?_eq_getElem (by omega : 1 < (am.mFaces[i]).mIndices.length),
    List.getElem?_eq_getElem (by omega : 2 < (am.mFaces[i]).mIndices.length)]
  exact ⟨_, rfl⟩

theorem meshBody_total (Normalize : Vector3d → Vector3d) (scene : aiScene)
    (root_transformation : Matrix4d) (node : aiNode) (mesh_idx : Nat) (mesh : Mesh)
    (hi : mesh_idx < node.mNumMeshes)
    (hwf : ∀ idx ∈ node.mMeshes, ∃ am, scene.mMeshes[idx]? = some am ∧ MeshWellFormed am) :
    ∃ mesh1, meshBody Normalize scene root_transformation node mesh_idx mesh = some mesh1 := by
  have hi1 : mesh_idx < node.mMeshes.length := hi
  obtain ⟨am, ham, hw⟩ := hwf node.mMeshes[mesh_idx] (List.getElem_mem _)
  unfold meshBody
  rw [List.getElem?_eq_getElem hi1]
  simp only [ham]
  obtain ⟨sm0, h0, _⟩ := forLoop_total
    (vertexBody Normalize am (root_transformation.mul (ConvertTransform node.mTransformation))
      ((root_transformation.mul (ConvertTransform node.mTransformation)).SetTranslation
        Vector3d.Zero))
    (fun _ _ => True) am.mNumVertices SubMesh.new
    (fun i t hi _ => by
      obtain ⟨t1, ht1⟩ := vertexBody_total Normalize am _ _ hw i hi t
      exact ⟨t1, ht1, trivial⟩) trivial
  obtain ⟨sm1, h1, _⟩ := forLoop_total (faceBody am) (fun _ _ => True) am.mNumFaces sm0
    (fun i t hi _ => by
      obtain ⟨t1, ht1⟩ := faceBody_total am hw i hi t
      exact ⟨t1, ht1, trivial⟩) trivial
  simp only [h0, h1]
  exact ⟨_, rfl⟩

/-- The loop over the root's children ends with a mesh when every mesh
reference of every child is in range and refers to a well-formed mesh. -/
theorem nodeLoop_total (Normalize : Vector3d → Vector3d) (scene : aiScene) (mesh : Mesh)
    (hwf : ∀ node ∈ scene.mRootNode.mChildren, ∀ idx ∈ node.mMeshes,
      ∃ am, scene.mMeshes[idx]? = some am ∧ MeshWellFormed am) :
    ∃ mesh1, forLoop scene.mRootNode.mNumChildren (nodeBody Normalize scene
      (ConvertTransform scene.mRootNode.mTransformation) scene.mRootNode) mesh = some mesh1 := by
  obtain ⟨m1, h1, _⟩ := forLoop_total (nodeBody Normalize scene
      (ConvertTransform scene.mRootNode.mTransformation) scene.mRootNode)
    (fun _ _ => True) scene.mRootNode.mNumChildren mesh
    (fun i t hi _ => by
      have hi1 : i < scene.mRootNode.mChildren.length := hi
      unfold nodeBody
      rw [List.getElem?_eq_getElem hi1]
      simp only []
      obtain ⟨t1, ht1, _⟩ := forLoop_total
        (meshBody Normalize scene (ConvertTransform scene.mRootNode.mTransformation)
          scene.mRootNode.mChildren[i])
        (fun _ _ => True) (scene.mRootNode.mChildren[i]).mNumMeshes t
        (fun j u hj _ => by
          obtain ⟨u1, hu1⟩ := meshBody_total Normalize scene
            (ConvertTransform scene.mRootNode.mTransformation) scene.mRootNode.mChildren[i]
            j u hj (hwf _ (List.getElem_mem _))
          exact ⟨u1, hu1, trivial⟩) trivial
      exact ⟨t1, ht1, trivial⟩) trivial
  exact ⟨m1, h1⟩

theorem length_meshRefs (root_node : aiNode) :
    (meshRefs root_node).length = (root_node.mChildren.map aiNode.mNumMeshes).sum := by
  unfold meshRefs
  induction root_node.mChildren with
  | nil => rfl
  | cons c cs ih => simp [List.flatMap_cons, ih, aiNode.mNumMeshes]

/-! ## What `Load` depends on -/

theorem meshBody_congr (Normalize : Vector3d → Vector3d) (s1 s2 : aiScene)
    (rt : Matrix4d) (c1 c2 : aiNode) (hname : c1.mName = c2.mName)
    (htr : c1.mTransformation = c2.mTransformation) (hms : c1.mMeshes = c2.mMeshes)
    (hm : ∀ idx ∈ c1.mMeshes, s1.mMeshes[idx]? = s2.mMeshes[idx]?) (j : Nat) (t : Mesh) :
    meshBody Normalize s1 rt c1 j t = meshBody Normalize s2 rt c2 j t := by
  unfold meshBody
  rw [← hms, ← hname, ← htr]
  cases hidx : c1.mMeshes[j]? with
  | none => rfl
  | some idx =>
    simp only []
    rw [hm idx (List.getElem?_mem hidx)]

theorem nodeLoop_congr (Normalize : Vector3d → Vector3d) (s1 s2 : aiScene)
    (htr : s1.mRootNode.mTransformation = s2.mRootNode.mTransformation)
    (hch : ChildrenAgree s1 s2) (mesh : Mesh) :
    forLoop s1.mRootNode.mNumChildren (nodeBody Normalize s1
      (ConvertTransform s1.mRootNode.mTransformation) s1.mRootNode) mesh =
    forLoop s2.mRootNode.mNumChildren (nodeBody Normalize s2
      (ConvertTransform s2.mRootNode.mTransformation) s2.mRootNode) mesh := by
  have hlen : s1.mRootNode.mNumChildren = s2.mRootNode.mNumChildren := hch.length_eq
  rw [← hlen, ← htr]
  apply forLoop_congr
  intro i t hi
  have hi1 : i < s1.mRootNode.mChildren.length := hi
  obtain ⟨c2, hc2, hn, ht, hms, hm⟩ :=
    forall₂_getElem?_left _ _ _ hch i _ (List.getElem?_eq_getElem hi1)
  unfold nodeBody
  rw [List.getElem?_eq_getElem hi1, hc2]
  simp only []
  have hl : (s1.mRootNode.mChildren[i]).mNumMeshes = c2.mNumMeshes := by
    unfold aiNode.mNumMeshes; rw [hms]
  rw [hl]
  apply forLoop_congr
  intro j u _
  exact meshBody_congr Normalize s1 s2 _ _ _ hn ht hms hm j u

/-! ## Matrices -/

theorem toMatrix_ConvertTransform (m : aiMatrix4x4) :
    (ConvertTransform m).toMatrix = m.toMatrix := rfl

theorem toMatrix_mul (p q : Matrix4d) : (p.mul q).toMatrix = p.toMatrix * q.toMatrix := by
  ext i j
  fin_cases i <;> fin_cases j <;>
    simp [Matrix.mul_apply, Fin.sum_univ_four, Matrix4d.toMatrix, Matrix4d.mul]

theorem mulVec_eq_applyPoint (p : Matrix4d) (x y z : ℚ) :
    p.mulVec ⟨x, y, z⟩ = applyPoint p.toMatrix x y z := by
  simp [Matrix4d.mulVec, applyPoint, Matrix.mulVec, Matrix.dotProduct, Fin.sum_univ_four,
    Matrix4d.toMatrix]

theorem toMatrix_SetTranslation_Zero (p : Matrix4d) :
    (p.SetTranslation Vector3d.Zero).toMatrix = zeroTranslation p.toMatrix := by
  ext i j
  fin_cases i <;> fin_cases j <;>
    simp [Matrix4d.toMatrix, Matrix4d.SetTranslation, Vector3d.Zero, zeroTranslation]

theorem zeroTranslation_congr (A B : Matrix (Fin 4) (Fin 4) ℚ)
    (h : ∀ i j, ¬ (j = 3 ∧ i ≠ 3) → B i j = A i j) :
    zeroTranslation B = zeroTranslation A := by
  ext i j
  simp only [zeroTranslation, Matrix.of_apply]
  by_cases hc : j = 3 ∧ i ≠ 3
  · rw [if_pos hc, if_pos hc]
  · rw [if_neg hc, if_neg hc]
    exact h i j hc

theorem outVertex_eq (root node : aiMatrix4x4) (v : aiVector3D) :
    outVertex ((ConvertTransform root).mul (ConvertTransform node)) v =
      applyPoint (root.toMatrix * node.toMatrix) v.x v.y v.z := by
  rw [outVertex, mulVec_eq_applyPoint, toMatrix_mul, toMatrix_ConvertTransform,
    toMatrix_ConvertTransform]

theorem outNormal_eq (Normalize : Vector3d → Vector3d) (root node : aiMatrix4x4)
    (n : aiVector3D) :
    outNormal Normalize ((ConvertTransform root).mul (ConvertTransform node)) n =
      Normalize (applyPoint (zeroTranslation (root.toMatrix * node.toMatrix)) n.x n.y n.z) := by
  rw [outNormal, mulVec_eq_applyPoint, toMatrix_SetTranslation_Zero, toMatrix_mul,
    toMatrix_ConvertTransform, toMatrix_ConvertTransform]

/-! ## Properties of `Load` -/

/-- The submesh at a position of the returned mesh is built from the mesh
reference at the same position. -/
theorem Load_submesh_at (Normalize : Vector3d → Vector3d) (newMaterial : Material)
    (path : String) (scene : aiScene) (mesh : Mesh)
    (hload : Load Normalize newMaterial path (some scene) = some mesh) (k : Nat) (sm : SubMesh)
    (hk : mesh.submeshes[k]? = some sm) :
    ∃ node idx am, (meshRefs scene.mRootNode)[k]? = some (node, idx) ∧
      scene.mMeshes[idx]? = some am ∧
      BuiltFrom Normalize ((ConvertTransform scene.mRootNode.mTransformation).mul
        (ConvertTransform node.mTransformation)) node am sm := by
  obtain ⟨_, hf⟩ := Load_spec _ _ _ _ _ hload
  obtain ⟨⟨node, idx⟩, hr, am, ham, hb⟩ := forall₂_getElem?_right _ _ _ hf k sm hk
  exact ⟨node, idx, am, hr, ham, hb⟩

/-- The mesh reference at a position has its submesh at the same position of
the returned mesh. -/
theorem Load_ref_at (Normalize : Vector3d → Vector3d) (newMaterial : Material)
    (path : String) (scene : aiScene) (mesh : Mesh)
    (hload : Load Normalize newMaterial path (some scene) = some mesh) (k : Nat)
    (node : aiNode) (idx : Nat) (am : aiMesh)
    (href : (meshRefs scene.mRootNode)[k]? = some (node, idx))
    (ham : scene.mMeshes[idx]? = some am) :
    ∃ sm, mesh.submeshes[k]? = some sm ∧
      BuiltFrom Normalize ((ConvertTransform scene.mRootNode.mTransformation).mul
        (ConvertTransform node.mTransformation)) node am sm := by
  obtain ⟨_, hf⟩ := Load_spec _ _ _ _ _ hload
  obtain ⟨sm, hsm, am1, ham1, hb⟩ := forall₂_getElem?_left _ _ _ hf k _ href
  have e : am1 = am := by
    have := ham1.symm.trans ham
    exact Option.some.inj this
  subst e
  exact ⟨sm, hsm, hb⟩

theorem flatMap_take3_length (faces : List aiFace)
    (h : ∀ f ∈ faces, f.mIndices.length = 3) :
    (faces.flatMap (fun f => f.mIndices.take 3)).length = 3 * faces.length := by
  induction faces with
  | nil => rfl
  | cons f rest ih =>
    have hf := h f (List.mem_cons_self _ _)
    have := ih (fun g hg => h g (List.mem_cons_of_mem _ hg))
    simp only [List.flatMap_cons, List.length_append, List.length_take, List.length_cons, hf, this]
    omega

theorem flatMap_take3_getElem? (faces : List aiFace)
    (h : ∀ f ∈ faces, f.mIndices.length = 3) :
    ∀ (fk : Nat) (f : aiFace), faces[fk]? = some f → ∀ t, t < 3 →
      (faces.flatMap (fun f => f.mIndices.take 3))[3 * fk + t]? = f.mIndices[t]? := by
  induction faces with
  | nil => intro fk f hf; simp at hf
  | cons f0 rest ih =>
    intro fk f hf t ht
    have h0 := h f0 (List.mem_cons_self _ _)
    have hlen : (f0.mIndices.take 3).length = 3 := by simp [h0]
    simp only [List.flatMap_cons]
    cases fk with
    | zero =>
      simp only [List.getElem?_cons_zero, Option.some.injEq] at hf
      subst hf
      rw [List.getElem?_append_left (by omega)]
      simp only [Nat.mul_zero, Nat.zero_add]
      exact List.getElem?_take_of_lt ht
    | succ k =>
      simp only [List.getElem?_cons_succ] at hf
      rw [List.getElem?_append_right (by omega), hlen]
      have e : 3 * (k + 1) + t - 3 = 3 * k + t := by omega
      rw [e]
      exact ih (fun g hg => h g (List.mem_cons_of_mem _ hg)) k f hf t ht

theorem forall₂_map_eq {α β γ : Type} (f : α → γ) (g : β → γ) (l1 : List α) (l2 : List β)
    (h : List.Forall₂ (fun a b => g b = f a) l1 l2) : l2.map g = l1.map f := by
  induction h with
  | nil => rfl
  | cons hab _ ih => simp [hab, ih]

theorem map_name_meshRefs (root_node : aiNode) :
    (meshRefs root_node).map (fun r => r.1.mName) =
      root_node.mChildren.flatMap (fun node => List.replicate node.mNumMeshes node.mName) := by
  unfold meshRefs
  induction root_node.mChildren with
  | nil => rfl
  | cons c cs ih =>
    simp only [List.flatMap_cons, List.map_append, ih, List.map_map]
    congr 1
    unfold aiNode.mNumMeshes
    induction c.mMeshes with
    | nil => rfl
    | cons x xs ih2 => simp [List.replicate_succ, ih2]

/-- C1: in the mesh `Load` returns for a scene whose meshes all have a material
index below the scene's material count, every submesh carries the material
index of the scene mesh it was built from, and that index is below the number
of materials of the returned mesh. -/
theorem C1_material_index (Normalize : Vector3d → Vector3d) (newMaterial : Material)
    (path : String) (scene : aiScene) (mesh : Mesh)
    (hload : Load Normalize newMaterial path (some scene) = some mesh)
    (hmat : ∀ am ∈ scene.mMeshes, am.mMaterialIndex < scene.mNumMaterials)
    (k : Nat) (sm : SubMesh) (hk : mesh.submeshes[k]? = some sm) :
    ∃ node idx am, (meshRefs scene.mRootNode)[k]? = some (node, idx) ∧
      scene.mMeshes[idx]? = some am ∧
      sm.materialIndex = some am.mMaterialIndex ∧
      am.mMaterialIndex < mesh.materials.length := by
  obtain ⟨node, idx, am, href, ham, hb⟩ := Load_submesh_at _ _ _ _ _ hload k sm hk
  refine ⟨node, idx, am, href, ham, hb.material_eq, ?_⟩
  rw [(Load_spec _ _ _ _ _ hload).1, List.length_map]
  exact hmat am (List.getElem?_mem ham)

/-- C1 at the second submesh of the sample scene. -/
theorem C1_material_index_witness :
    ∃ node idx am, (meshRefs sampleScene.mRootNode)[1]? = some (node, idx) ∧
      sampleScene.mMeshes[idx]? = some am ∧
      ((sampleLoaded.submeshes[1]?).getD SubMesh.new).materialIndex = some am.mMaterialIndex ∧
      am.mMaterialIndex < sampleLoaded.materials.length :=
  C1_material_index id sampleMaterial "assets" sampleScene sampleLoaded rfl (by decide) 1
    ((sampleLoaded.submeshes[1]?).getD SubMesh.new) rfl

/-- C2, as the code has it: the number of submeshes of the mesh `Load` returns
is the total number of mesh references over the direct children of the root
node. -/
theorem C2_submesh_count_children (Normalize : Vector3d → Vector3d) (newMaterial : Material)
    (path : String) (scene : aiScene) (mesh : Mesh)
    (hload : Load Normalize newMaterial path (some scene) = some mesh) :
    mesh.submeshes.length = (scene.mRootNode.mChildren.map aiNode.mNumMeshes).sum := by
  rw [← length_meshRefs]
  exact ((Load_spec _ _ _ _ _ hload).2.length_eq).symm

/-- C2, as the code has it, on the sample scene. -/
theorem C2_submesh_count_children_witness :
    sampleLoaded.submeshes.length = (sampleScene.mRootNode.mChildren.map aiNode.mNumMeshes).sum :=
  C2_submesh_count_children id sampleMaterial "assets" sampleScene sampleLoaded rfl

/-- C2 fails as stated: the sample scene has five mesh references over the
nodes of its tree (one on the root, three on the root's children, one on a
grandchild), and `Load` returns a mesh with three submeshes. -/
theorem C2_whole_tree_counterexample :
    (Load id sampleMaterial "assets" (some sampleScene)).map (fun m => m.submeshes.length)
        = some 3 ∧
      totalMeshRefs sampleScene.mRootNode = 5 := by
  constructor
  · rfl
  · rfl

/-- C3: for a mesh referenced by a child of the root whose faces all have
exactly three indices, each below the vertex count, the submesh built from it
has three indices per face, indices 3k, 3k+1, 3k+2 being those of face k in
order, and every index is below the submesh's vertex count. -/
theorem C3_triangle_list (Normalize : Vector3d → Vector3d) (newMaterial : Material)
    (path : String) (scene : aiScene) (mesh : Mesh)
    (hload : Load Normalize newMaterial path (some scene) = some mesh)
    (k : Nat) (node : aiNode) (idx : Nat) (am : aiMesh)
    (href : (meshRefs scene.mRootNode)[k]? = some (node, idx))
    (ham : scene.mMeshes[idx]? = some am)
    (hfaces : ∀ f ∈ am.mFaces, f.mIndices.length = 3 ∧ ∀ i ∈ f.mIndices, i < am.mNumVertices) :
    ∃ sm, mesh.submeshes[k]? = some sm ∧
      sm.indices.length = 3 * am.mNumFaces ∧
      (∀ fk f, am.mFaces[fk]? = some f → ∀ t, t < 3 →
        sm.indices[3 * fk + t]? = f.mIndices[t]?) ∧
      (∀ i ∈ sm.indices, i < sm.vertices.length) := by
  obtain ⟨sm, hsm, hb⟩ := Load_ref_at _ _ _ _ _ hload k node idx am href ham
  have h3 : ∀ f ∈ am.mFaces, f.mIndices.length = 3 := fun f hf => (hfaces f hf).1
  refine ⟨sm, hsm, ?_, ?_, ?_⟩
  · rw [hb.indices_eq]
    exact flatMap_take3_length _ h3
  · rw [hb.indices_eq]
    exact flatMap_take3_getElem? _ h3
  · intro i hi
    rw [hb.indices_eq, List.mem_flatMap] at hi
    obtain ⟨f, hf, hif⟩ := hi
    rw [hb.vertices_eq, List.length_map]
    exact (hfaces f hf).2 i (List.mem_of_mem_take hif)

/-- C3 at the square of the sample scene. -/
theorem C3_triangle_list_witness :
    ∃ sm, sampleLoaded.submeshes[1]? = some sm ∧
      sm.indices.length = 3 * sampleSquare.mNumFaces ∧
      (∀ fk f, sampleSquare.mFaces[fk]? = some f → ∀ t, t < 3 →
        sm.indices[3 * fk + t]? = f.mIndices[t]?) ∧
      (∀ i ∈ sm.indices, i < sm.vertices.length) :=
  C3_triangle_list id sampleMaterial "assets" sampleScene sampleLoaded rfl 1
    (aiNode.mk "right" sampleTransform [1, 0] [aiNode.mk "deep" sampleIdentity [1] []]) 1
    sampleSquare rfl rfl (by decide)

/-- C4: the names of the submeshes of the mesh `Load` returns are the names of
the children of the root, in child order, each repeated once per mesh
reference of the child. -/
theorem C4_submesh_names (Normalize : Vector3d → Vector3d) (newMaterial : Material)
    (path : String) (scene : aiScene) (mesh : Mesh)
    (hload : Load Normalize newMaterial path (some scene) = some mesh) :
    mesh.submeshes.map (fun sm => sm.name) =
      scene.mRootNode.mChildren.flatMap
        (fun node => List.replicate node.mNumMeshes node.mName) := by
  rw [← map_name_meshRefs]
  apply forall₂_map_eq
  refine List.Forall₂.imp ?_ (Load_spec _ _ _ _ _ hload).2
  rintro r sm ⟨am, _, hb⟩
  exact hb.name_eq

/-- C4 on the sample scene. -/
theorem C4_submesh_names_witness :
    sampleLoaded.submeshes.map (fun sm => sm.name) =
      sampleScene.mRootNode.mChildren.flatMap
        (fun node => List.replicate node.mNumMeshes node.mName) :=
  C4_submesh_names id sampleMaterial "assets" sampleScene sampleLoaded rfl

/-- C6: for the submesh built from a mesh of a child `node` of the root, with
`M` the product of the root's matrix and the node's matrix in that order, both
taken entry for entry, output vertex `i` is `M` applied to input vertex `i` as
a point, and output normal `i` is the normalisation of `M` with zero
translation applied to input normal `i`, which is the same for every matrix
that differs from `M` in its translation only. -/
theorem C6_coordinate_conversion (Normalize : Vector3d → Vector3d) (newMaterial : Material)
    (path : String) (scene : aiScene) (mesh : Mesh)
    (hload : Load Normalize newMaterial path (some scene) = some mesh)
    (k : Nat) (node : aiNode) (idx : Nat) (am : aiMesh)
    (href : (meshRefs scene.mRootNode)[k]? = some (node, idx))
    (ham : scene.mMeshes[idx]? = some am)
    (i : Nat) (v : aiVector3D) (hv : am.mVertices[i]? = some v) :
    (ConvertTransform scene.mRootNode.mTransformation).toMatrix
        = scene.mRootNode.mTransformation.toMatrix ∧
    (ConvertTransform node.mTransformation).toMatrix = node.mTransformation.toMatrix ∧
    ∃ sm n, mesh.submeshes[k]? = some sm ∧ am.mNormals[i]? = some n ∧
      sm.vertices[i]? = some (applyPoint
        (scene.mRootNode.mTransformation.toMatrix * node.mTransformation.toMatrix)
        v.x v.y v.z) ∧
      sm.normals[i]? = some (Normalize (applyPoint
        (zeroTranslation
          (scene.mRootNode.mTransformation.toMatrix * node.mTransformation.toMatrix))
        n.x n.y n.z)) ∧
      ∀ M1 : Matrix (Fin 4) (Fin 4) ℚ,
        (∀ r c, ¬ (c = 3 ∧ r ≠ 3) → M1 r c =
          (scene.mRootNode.mTransformation.toMatrix * node.mTransformation.toMatrix) r c) →
        applyPoint (zeroTranslation M1) n.x n.y n.z =
          applyPoint (zeroTranslation
            (scene.mRootNode.mTransformation.toMatrix * node.mTransformation.toMatrix))
            n.x n.y n.z := by
  obtain ⟨sm, hsm, hb⟩ := Load_ref_at _ _ _ _ _ hload k node idx am href ham
  have hi : i < am.mNumVertices := lt_length_of_getElem? _ _ _ hv
  have hin : i < am.mNormals.length := lt_of_lt_of_le hi hb.normals_le
  refine ⟨rfl, rfl, sm, am.mNormals[i], hsm, List.getElem?_eq_getElem hin, ?_, ?_, ?_⟩
  · rw [hb.vertices_eq, List.getElem?_map, hv, Option.map_some', outVertex_eq]
  · rw [hb.normals_eq, List.getElem?_map, List.getElem?_take_of_lt hi,
      List.getElem?_eq_getElem hin, Option.map_some', outNormal_eq]
  · intro M1 hM
    rw [zeroTranslation_congr _ _ hM]

/-- C6 at the third vertex of the square of the sample scene. -/
theorem C6_coordinate_conversion_witness :
    (ConvertTransform sampleScene.mRootNode.mTransformation).toMatrix
        = sampleScene.mRootNode.mTransformation.toMatrix ∧
    (ConvertTransform sampleTransform).toMatrix = sampleTransform.toMatrix ∧
    ∃ sm n, sampleLoaded.submeshes[1]? = some sm ∧ sampleSquare.mNormals[2]? = some n ∧
      sm.vertices[2]? = some (applyPoint
        (sampleScene.mRootNode.mTransformation.toMatrix * sampleTransform.toMatrix) 1 1 0) ∧
      sm.normals[2]? = some (id (applyPoint
        (zeroTranslation
          (sampleScene.mRootNode.mTransformation.toMatrix * sampleTransform.toMatrix))
        n.x n.y n.z)) ∧
      ∀ M1 : Matrix (Fin 4) (Fin 4) ℚ,
        (∀ r c, ¬ (c = 3 ∧ r ≠ 3) → M1 r c =
          (sampleScene.mRootNode.mTransformation.toMatrix * sampleTransform.toMatrix) r c) →
        applyPoint (zeroTranslation M1) n.x n.y n.z =
          applyPoint (zeroTranslation
            (sampleScene.mRootNode.mTransformation.toMatrix * sampleTransform.toMatrix))
            n.x n.y n.z :=
  C6_coordinate_conversion id sampleMaterial "assets" sampleScene sampleLoaded rfl 1
    (aiNode.mk "right" sampleTransform [1, 0] [aiNode.mk "deep" sampleIdentity [1] []]) 1
    sampleSquare rfl rfl 2 ⟨1, 1, 0⟩ rfl

/-- C8: when the importer returns no scene, `Load` returns a mesh, freshly
made, with no submesh and no material. -/
theorem C8_import_failure (Normalize : Vector3d → Vector3d) (newMaterial : Material)
    (path : String) :
    ∃ mesh, Load Normalize newMaterial path none = some mesh ∧ mesh = Mesh.new ∧
      mesh.submeshes.length = 0 ∧ mesh.materials.length = 0 :=
  ⟨Mesh.new, rfl, rfl, rfl, rfl⟩

/-- C9: two scenes with the same materials, the same root transform and
agreeing direct children of the root give the same result of `Load`, whatever
their animations, their other meshes and the deeper nodes of their trees. -/
theorem C9_depends_only_on (Normalize : Vector3d → Vector3d) (newMaterial : Material)
    (path : String) (s1 s2 : aiScene)
    (hmat : s1.mMaterials = s2.mMaterials)
    (htr : s1.mRootNode.mTransformation = s2.mRootNode.mTransformation)
    (hch : ChildrenAgree s1 s2) :
    Load Normalize newMaterial path (some s1) = Load Normalize newMaterial path (some s2) := by
  rw [Load_eq, Load_eq, hmat]
  exact nodeLoop_congr Normalize s1 s2 htr hch _

/-- C9 on the sample scene and its variant, which differ in the root's name and
meshes, the grandchildren, an unreferenced mesh and the animations. -/
theorem C9_depends_only_on_witness :
    sampleScene.mAnimations ≠ sampleSceneVariant.mAnimations ∧
    sampleScene.mMeshes.length ≠ sampleSceneVariant.mMeshes.length ∧
    Load id sampleMaterial "assets" (some sampleScene) =
      Load id sampleMaterial "assets" (some sampleSceneVariant) :=
  ⟨by decide, by decide,
    C9_depends_only_on id sampleMaterial "assets" sampleScene sampleSceneVariant rfl rfl
      (List.Forall₂.cons ⟨rfl, rfl, rfl, by
          intro idx hidx
          have e : idx = 0 := by simpa [aiNode.mMeshes] using hidx
          subst e; rfl⟩
        (List.Forall₂.cons ⟨rfl, rfl, rfl, by
            intro idx hidx
            have e : idx = 1 ∨ idx = 0 := by simpa [aiNode.mMeshes] using hidx
            rcases e with e | e <;> subst e <;> rfl⟩
          List.Forall₂.nil))⟩

/-- C10: when every mesh index held by a direct child of the root is below the
scene's mesh count and refers to a mesh with a normal for each vertex, an entry
for each vertex in each present texture-coordinate set and at least three
indices in each face, `Load` returns a mesh, with one submesh per mesh
reference of the root's direct children. -/
theorem C10_in_range (Normalize : Vector3d → Vector3d) (newMaterial : Material)
    (path : String) (scene : aiScene)
    (hwf : ∀ node ∈ scene.mRootNode.mChildren, ∀ idx ∈ node.mMeshes,
      idx < scene.mNumMeshes ∧ ∀ am, scene.mMeshes[idx]? = some am →
        am.mNumVertices ≤ am.mNormals.length ∧
        (∀ (j : Fin AI_MAX_NUMBER_OF_TEXTURECOORDS) (set : List aiVector3D),
          am.mTextureCoords j = some set → am.mNumVertices ≤ set.length) ∧
        (∀ f ∈ am.mFaces, 3 ≤ f.mIndices.length)) :
    ∃ mesh, Load Normalize newMaterial path (some scene) = some mesh ∧
      mesh.submeshes.length = (scene.mRootNode.mChildren.map aiNode.mNumMeshes).sum := by
  have hwf1 : ∀ node ∈ scene.mRootNode.mChildren, ∀ idx ∈ node.mMeshes,
      ∃ am, scene.mMeshes[idx]? = some am ∧ MeshWellFormed am := by
    intro node hnode idx hidx
    obtain ⟨hlt, hw⟩ := hwf node hnode idx hidx
    have hlt1 : idx < scene.mMeshes.length := hlt
    exact ⟨scene.mMeshes[idx], List.getElem?_eq_getElem hlt1,
      hw _ (List.getElem?_eq_getElem hlt1)⟩
  obtain ⟨mesh, hmesh⟩ := nodeLoop_total Normalize scene
    { submeshes := []
      materials := scene.mMaterials.map (fun src => fillMaterial newMaterial src path) } hwf1
  have hload : Load Normalize newMaterial path (some scene) = some mesh := by
    rw [Load_eq]; exact hmesh
  refine ⟨mesh, hload, ?_⟩
  rw [← length_meshRefs]
  exact ((Load_spec _ _ _ _ _ hload).2.length_eq).symm

/-- C10 on the sample scene. -/
theorem C10_in_range_witness :
    ∃ mesh, Load id sampleMaterial "assets" (some sampleScene) = some mesh ∧
      mesh.submeshes.length = (sampleScene.mRootNode.mChildren.map aiNode.mNumMeshes).sum :=
  C10_in_range id sampleMaterial "assets" sampleScene (by
    have htri : sampleTriangle.mNumVertices ≤ sampleTriangle.mNormals.length ∧
        (∀ (j : Fin AI_MAX_NUMBER_OF_TEXTURECOORDS) (set : List aiVector3D),
          sampleTriangle.mTextureCoords j = some set →
            sampleTriangle.mNumVertices ≤ set.length) ∧
        (∀ f ∈ sampleTriangle.mFaces, 3 ≤ f.mIndices.length) := by
      refine ⟨by decide, ?_, by decide⟩
      intro j set hset
      simp only [sampleTriangle] at hset
      split at hset
      · cases hset; decide
      · cases hset
    have hsq : sampleSquare.mNumVertices ≤ sampleSquare.mNormals.length ∧
        (∀ (j : Fin AI_MAX_NUMBER_OF_TEXTURECOORDS) (set : List aiVector3D),
          sampleSquare.mTextureCoords j = some set →
            sampleSquare.mNumVertices ≤ set.length) ∧
        (∀ f ∈ sampleSquare.mFaces, 3 ≤ f.mIndices.length) := by
      refine ⟨by decide, ?_, by decide⟩
      intro j set hset
      cases hset
    have h0 : ∀ am, sampleScene.mMeshes[0]? = some am →
        am.mNumVertices ≤ am.mNormals.length ∧
        (∀ (j : Fin AI_MAX_NUMBER_OF_TEXTURECOORDS) (set : List aiVector3D),
          am.mTextureCoords j = some set → am.mNumVertices ≤ set.length) ∧
        (∀ f ∈ am.mFaces, 3 ≤ f.mIndices.length) := by
      intro am ham
      have e : sampleTriangle = am := Option.some.inj ham
      rw [← e]; exact htri
    have h1 : ∀ am, sampleScene.mMeshes[1]? = some am →
        am.mNumVertices ≤ am.mNormals.length ∧
        (∀ (j : Fin AI_MAX_NUMBER_OF_TEXTURECOORDS) (set : List aiVector3D),
          am.mTextureCoords j = some set → am.mNumVertices ≤ set.length) ∧
        (∀ f ∈ am.mFaces, 3 ≤ f.mIndices.length) := by
      intro am ham
      have e : sampleSquare = am := Option.some.inj ham
      rw [← e]; exact hsq
    intro node hnode idx hidx
    have hn : node = aiNode.mk "left" sampleIdentity [0] [] ∨
        node = aiNode.mk "right" sampleTransform [1, 0]
          [aiNode.mk "deep" sampleIdentity [1] []] := by
      simpa [sampleScene, aiNode.mChildren] using hnode
    rcases hn with hn | hn
    · subst hn
      have e : idx = 0 := by simpa [aiNode.mMeshes] using hidx
      subst e
      exact ⟨by decide, h0⟩
    · subst hn
      have e : idx = 1 ∨ idx = 0 := by simpa [aiNode.mMeshes] using hidx
      rcases e with e | e
      · subst e; exact ⟨by decide, h1⟩
      · subst e; exact ⟨by decide, h0⟩)

end AssimpLoader
